import Mathlib

/-!
Shallow embedding of the Pacman arcade simulation core
(src/21201012+03.cpp) and verification of its specification claims.

Modelling conventions:
* C++ float arithmetic is modelled by exact rational arithmetic (the
  game logic compares and adds small decimal constants; no claim below
  depends on floating-point rounding).
* std::sqrt is modelled by ratSqrtUp, an exact rational square root that
  agrees with the real square root on perfect squares (all concrete
  states used in witnesses and counterexamples are chosen so that every
  distance computed is a perfect square) and never under-approximates,
  matching the property of the real square root that the normalized
  step never exceeds the speed.
* The C++ int cast of a float truncates toward zero: function trunc.
* The 20x20 C array board is modelled as a total function from pairs of
  integers; cells outside the 0..19 range are given the value wall (the
  C++ program has no defined value there, and the safety claim C10 is
  about such accesses never happening; every board read performed by a
  tick is recorded in an access log, tickAccesses).
* rand() is modelled by an oracle list of natural number pairs, one pair
  per pursuer per tick; the code applies the modulus 20 itself.
* The file based high score store is modelled as an Option value: none
  stands for a missing or unreadable file.
* Render-only fields (ghost colours and names, the isActive flag which
  the code writes but never reads, window sizes) are omitted.
-/

-- ---------------------------------------------------------------------
-- Data model
-- ---------------------------------------------------------------------

/-- Cell kinds of the board: 0=empty, 1=pellet, 2=wall, 3=power-up. -/
inductive Cell
  | empty
  | pellet
  | wall
  | power
deriving DecidableEq

/-- The 20x20 board, as a total function on integer row and column. -/
abbrev Board := ℤ → ℤ → Cell

/-- Truncation toward zero, the semantics of the C++ int cast. -/
def trunc (q : ℚ) : ℤ := if 0 ≤ q then ⌊q⌋ else -⌊-q⌋

/-- Fuel-driven integer square root search (structural recursion, so it
evaluates inside the kernel): starting from r, repeatedly step to r + 1
while the square of the successor still fits below n. -/
def isqrtGo (n : ℕ) : ℕ → ℕ → ℕ
  | 0, r => r
  | fuel + 1, r => if (r + 1) * (r + 1) ≤ n then isqrtGo n fuel (r + 1) else r

/-- The integer square root, rounded down. -/
def isqrt (n : ℕ) : ℕ := isqrtGo n n 0

/-- The integer square root, rounded up: exact on perfect squares. -/
def isqrtUp (n : ℕ) : ℕ :=
  if isqrt n * isqrt n = n then isqrt n else isqrt n + 1

/-- Exact rational square root model of std::sqrt: exact on perfect
squares, otherwise rounded up, so that its square is never below the
argument (the real square root satisfies the same two properties the
proofs use: it is exact on perfect squares, and the normalized direction
components it produces have magnitude at most one). -/
def ratSqrtUp (q : ℚ) : ℚ :=
  if q ≤ 0 then 0
  else ((isqrtUp (q.num * (q.den : ℤ)).toNat : ℚ)) / (q.den : ℚ)

/-- The player avatar: position, heading, speed (struct Pacman). -/
structure Pacman where
  x : ℚ
  y : ℚ
  dirX : ℤ
  dirY : ℤ
  speed : ℚ
deriving DecidableEq

/-- A pursuer (struct Ghost); colour, name and the never-read isActive
flag are omitted. -/
structure Ghost where
  x : ℚ
  y : ℚ
  speed : ℚ
  behavior : ℕ
  specialTimer : ℚ
deriving DecidableEq

/-- A collectible power-up (struct PowerUp). -/
structure PowerUp where
  x : ℚ
  y : ℚ
  type : ℤ
  active : Bool
  duration : ℚ
deriving DecidableEq

/-- The screen / session state enum (enum GameState). -/
inductive GameState
  | MENU
  | PLAYING
  | PAUSED
  | GAMEOVER
  | WIN
  | HELP
  | HIGHSCORE
deriving DecidableEq

/-- The mutable global state of the program gathered in one record. -/
structure GState where
  board : Board
  pac : Pacman
  ghosts : List Ghost
  powerUps : List PowerUp
  powerUpTimer : ℚ
  activePowerUp : ℤ
  score : ℤ
  lives : ℤ
  gameTime : ℕ
  frameCount : ℕ
  gameState : GameState
  totalPellets : ℕ
  highScore : ℤ

def defaultGhost : Ghost := ⟨0, 0, 0, 0, 0⟩

def defaultPowerUp : PowerUp := ⟨0, 0, 0, false, 0⟩

/-- Pointwise board update (assignment to board[r][c]). -/
def updateBoard (b : Board) (r c : ℤ) (v : Cell) : Board :=
  fun i j => if i = r ∧ j = c then v else b i j

-- ---------------------------------------------------------------------
-- Initialization (initBoard, initGhosts, initPowerUps, resetGame)
-- ---------------------------------------------------------------------

/-- The wall predicate of the initBoard loop: border walls plus the
internal plus-shaped wall. -/
def initWall (i j : ℤ) : Prop :=
  i = 0 ∨ j = 0 ∨ i = 19 ∨ j = 19 ∨
    (i = 10 ∧ 8 ≤ j ∧ j ≤ 12) ∨ (j = 10 ∧ 8 ≤ i ∧ i ≤ 12)

instance (i j : ℤ) : Decidable (initWall i j) := by
  unfold initWall; infer_instance

/-- The board produced by initBoard: base layout from the loop, then the
five start-position clearings, then the four power-up markers.  Cells
outside the array are modelled as wall. -/
def initBoard : Board := fun i j =>
  if i < 0 ∨ 19 < i ∨ j < 0 ∨ 19 < j then Cell.wall
  else if (i = 1 ∧ j = 1) ∨ (i = 18 ∧ j = 18) ∨ (i = 18 ∧ j = 1) ∨
          (i = 1 ∧ j = 18) ∨ (i = 10 ∧ j = 10) then Cell.empty
  else if (i = 3 ∧ j = 3) ∨ (i = 3 ∧ j = 16) ∨ (i = 16 ∧ j = 3) ∨
          (i = 16 ∧ j = 16) then Cell.power
  else if initWall i j then Cell.wall
  else Cell.pellet

/-- The totalPellets counter as initBoard computes it: it counts every
non-wall cell of the base loop (315 cells), before the clearings and
the power-up markers overwrite eight of those cells; the ninth
overwrite, the centre clearing, hits a cross-wall cell that was never
counted, so 307 pellet cells remain against a counter of 315. -/
def initTotalPellets : ℕ :=
  ((Finset.range 20 ×ˢ Finset.range 20).filter
    (fun p : ℕ × ℕ => ¬ initWall (p.1 : ℤ) (p.2 : ℤ))).card

/-- The four pursuers created by initGhosts, in push order: Blinky
(direct chase), Pinky (ambush), Inky (flank), Clyde (random). -/
def initGhosts : List Ghost :=
  [ { x := 18, y := 18, speed := 0.04,  behavior := 0, specialTimer := 0 },
    { x := 1,  y := 18, speed := 0.035, behavior := 1, specialTimer := 0 },
    { x := 18, y := 1,  speed := 0.038, behavior := 2, specialTimer := 0 },
    { x := 10, y := 10, speed := 0.03,  behavior := 3, specialTimer := 0 } ]

/-- The four power-ups created by initPowerUps. -/
def initPowerUps : List PowerUp :=
  [ { x := 3,  y := 3,  type := 0, active := true, duration := 0 },
    { x := 16, y := 3,  type := 1, active := true, duration := 0 },
    { x := 3,  y := 16, type := 2, active := true, duration := 0 },
    { x := 16, y := 16, type := 0, active := true, duration := 0 } ]

/-- resetGame; the persisted high score is the only datum it keeps. -/
def resetGame (hs : ℤ) : GState :=
  { board := initBoard
    pac := { x := 1, y := 1, dirX := 0, dirY := 0, speed := 0.1 }
    ghosts := initGhosts
    powerUps := initPowerUps
    powerUpTimer := 0
    activePowerUp := -1
    score := 0
    lives := 3
    gameTime := 0
    frameCount := 0
    gameState := GameState.MENU
    totalPellets := initTotalPellets
    highScore := hs }

-- ---------------------------------------------------------------------
-- High score persistence (loadHighScore, saveHighScore)
-- ---------------------------------------------------------------------

/-- loadHighScore: reads the stored integer; a missing or unreadable
store yields 0 (the C++ code sets highScore to 0 when the file does not
open, and a failed extraction also stores 0).  The function is total:
it never aborts. -/
def loadHighScore (file : Option ℤ) : ℤ :=
  match file with
  | some v => v
  | none => 0

/-- saveHighScore: returns the new in-memory high score and whether the
store is written.  The write happens exactly when the current score
exceeds the stored best. -/
def saveHighScore (sc hs : ℤ) : ℤ × Bool :=
  if hs < sc then (sc, true) else (hs, false)

-- ---------------------------------------------------------------------
-- Ghost AI and movement (updateGhost)
-- ---------------------------------------------------------------------

/-- The first half of updateGhost: the per-tick timer increment and the
ramped-difficulty speed increase, applied before the behaviour switch
and therefore identically for every behaviour tag. -/
def advanceGhost (gameTime : ℕ) (g : Ghost) : Ghost :=
  if gameTime % 30 = 0 ∧ 0 < gameTime then
    { g with specialTimer := g.specialTimer + 0.016, speed := g.speed + 0.001 }
  else { g with specialTimer := g.specialTimer + 0.016 }

/-- The behaviour switch of updateGhost, computing the target of a
pursuer whose timers have already been advanced this tick.  Behaviour 3
holds no stored target: outside its redraw window the target is the
avatar position with which targetX and targetY were initialised. -/
def ghostTarget (pac : Pacman) (ghost0 : Ghost) (rnd : ℕ × ℕ) (g : Ghost) :
    ℚ × ℚ :=
  if g.behavior = 0 then (pac.x, pac.y)
  else if g.behavior = 1 then
    (pac.x + (pac.dirX : ℚ) * 4, pac.y + (pac.dirY : ℚ) * 4)
  else if g.behavior = 2 then
    (pac.x + (pac.x - ghost0.x), pac.y + (pac.y - ghost0.y))
  else if g.behavior = 3 then
    (if trunc g.specialTimer % 5 = 0
     then (((rnd.1 % 20 : ℕ) : ℚ), ((rnd.2 % 20 : ℕ) : ℚ))
     else (pac.x, pac.y))
  else (pac.x, pac.y)

/-- The movement half of updateGhost: normalized step toward the target,
accepted only when the destination cell is not a wall.  The second
component records the board access (row, column) performed by the wall
check, if any. -/
def ghostMove (b : Board) (g : Ghost) (t : ℚ × ℚ) :
    Ghost × List (ℤ × ℤ) :=
  if 0 < ratSqrtUp ((t.1 - g.x) * (t.1 - g.x) + (t.2 - g.y) * (t.2 - g.y))
  then
    (if b (trunc (g.y + (t.2 - g.y) /
            ratSqrtUp ((t.1 - g.x) * (t.1 - g.x) + (t.2 - g.y) * (t.2 - g.y)) *
            g.speed))
          (trunc (g.x + (t.1 - g.x) /
            ratSqrtUp ((t.1 - g.x) * (t.1 - g.x) + (t.2 - g.y) * (t.2 - g.y)) *
            g.speed)) ≠ Cell.wall
     then
       ({ g with
          x := g.x + (t.1 - g.x) /
            ratSqrtUp ((t.1 - g.x) * (t.1 - g.x) + (t.2 - g.y) * (t.2 - g.y)) *
            g.speed,
          y := g.y + (t.2 - g.y) /
            ratSqrtUp ((t.1 - g.x) * (t.1 - g.x) + (t.2 - g.y) * (t.2 - g.y)) *
            g.speed },
        [(trunc (g.y + (t.2 - g.y) /
            ratSqrtUp ((t.1 - g.x) * (t.1 - g.x) + (t.2 - g.y) * (t.2 - g.y)) *
            g.speed),
          trunc (g.x + (t.1 - g.x) /
            ratSqrtUp ((t.1 - g.x) * (t.1 - g.x) + (t.2 - g.y) * (t.2 - g.y)) *
            g.speed))])
     else
       (g,
        [(trunc (g.y + (t.2 - g.y) /
            ratSqrtUp ((t.1 - g.x) * (t.1 - g.x) + (t.2 - g.y) * (t.2 - g.y)) *
            g.speed),
          trunc (g.x + (t.1 - g.x) /
            ratSqrtUp ((t.1 - g.x) * (t.1 - g.x) + (t.2 - g.y) * (t.2 - g.y)) *
            g.speed))]))
  else (g, [])

/-- updateGhost: early return while frozen, then timer and speed
advance, target selection, and the wall-checked step.  The ghost0
argument is the current value of ghosts[0], read by behaviour 2. -/
def updateGhost (apu : ℤ) (gameTime : ℕ) (pac : Pacman) (b : Board)
    (ghost0 : Ghost) (rnd : ℕ × ℕ) (g : Ghost) : Ghost × List (ℤ × ℤ) :=
  if apu = 1 then (g, [])
  else
    ghostMove b (advanceGhost gameTime g)
      (ghostTarget pac ghost0 rnd (advanceGhost gameTime g))

/-- The ghost loop for indices 1 and up: by the time these run, the
in-place update of ghosts[0] has already happened, so behaviour 2 reads
the updated head, passed here as ghost0. -/
def stepGhostsRest (apu : ℤ) (gameTime : ℕ) (pac : Pacman) (b : Board)
    (ghost0 : Ghost) : List (ℕ × ℕ) → List Ghost →
    List Ghost × List (ℤ × ℤ)
  | _, [] => ([], [])
  | rnds, g :: rest =>
    (((updateGhost apu gameTime pac b ghost0 (rnds.headD (0, 0)) g).1 ::
        (stepGhostsRest apu gameTime pac b ghost0 rnds.tail rest).1),
      (updateGhost apu gameTime pac b ghost0 (rnds.headD (0, 0)) g).2 ++
        (stepGhostsRest apu gameTime pac b ghost0 rnds.tail rest).2)

/-- The full ghost loop of updateGame.  When updating ghosts[0] itself,
behaviour 2 would read the not-yet-moved coordinates of ghosts[0], so
the original head is passed as ghost0 for its own update. -/
def stepGhosts (apu : ℤ) (gameTime : ℕ) (pac : Pacman) (b : Board)
    (rnds : List (ℕ × ℕ)) : List Ghost → List Ghost × List (ℤ × ℤ)
  | [] => ([], [])
  | g0 :: rest =>
    ((updateGhost apu gameTime pac b g0 (rnds.headD (0, 0)) g0).1 ::
        (stepGhostsRest apu gameTime pac b
          (updateGhost apu gameTime pac b g0 (rnds.headD (0, 0)) g0).1
          rnds.tail rest).1,
      (updateGhost apu gameTime pac b g0 (rnds.headD (0, 0)) g0).2 ++
        (stepGhostsRest apu gameTime pac b
          (updateGhost apu gameTime pac b g0 (rnds.headD (0, 0)) g0).1
          rnds.tail rest).2)

-- ---------------------------------------------------------------------
-- The per-tick orchestrator (updateGame), split into its phases
-- ---------------------------------------------------------------------

/-- Phase 1: frame counter and the derived seconds counter. -/
def phaseFrame (s : GState) : GState :=
  if (s.frameCount + 1) % 60 = 0 then
    { s with frameCount := s.frameCount + 1, gameTime := s.gameTime + 1 }
  else { s with frameCount := s.frameCount + 1 }

/-- The board index pair read by the avatar wall check this tick. -/
def moveAccess (s : GState) : ℤ × ℤ :=
  (trunc (s.pac.y + (s.pac.dirY : ℚ) * s.pac.speed),
   trunc (s.pac.x + (s.pac.dirX : ℚ) * s.pac.speed))

/-- Phase 2: avatar movement with the all-or-nothing wall check. -/
def phaseMove (s : GState) : GState :=
  if s.board (trunc (s.pac.y + (s.pac.dirY : ℚ) * s.pac.speed))
      (trunc (s.pac.x + (s.pac.dirX : ℚ) * s.pac.speed)) ≠ Cell.wall then
    { s with pac := { s.pac with
        x := s.pac.x + (s.pac.dirX : ℚ) * s.pac.speed,
        y := s.pac.y + (s.pac.dirY : ℚ) * s.pac.speed } }
  else s

/-- The board index pair of the cell the avatar currently occupies, read
by the pellet check and again by the power-up check. -/
def cellAccess (s : GState) : ℤ × ℤ := (trunc s.pac.y, trunc s.pac.x)

/-- Phase 3: pellet consumption, plus 10 points. -/
def phaseEat (s : GState) : GState :=
  if s.board (trunc s.pac.y) (trunc s.pac.x) = Cell.pellet then
    { s with
      board := updateBoard s.board (trunc s.pac.y) (trunc s.pac.x) Cell.empty,
      score := s.score + 10 }
  else s

/-- The power-up collection loop: the first still-active entry at the
avatar cell sets the single current-effect slot, resets the countdown,
awards 50 points, and for the speed effect raises the avatar speed. -/
def collectPower (s : GState) (pr pc : ℤ) : GState :=
  match s.powerUps.findIdx?
      (fun p => trunc p.x == pc && trunc p.y == pr && p.active) with
  | none => s
  | some i =>
    if (s.powerUps.getD i defaultPowerUp).type = 2 then
      { s with
        activePowerUp := (s.powerUps.getD i defaultPowerUp).type,
        powerUpTimer := 5,
        powerUps := s.powerUps.set i
          { s.powerUps.getD i defaultPowerUp with active := false },
        score := s.score + 50,
        pac := { s.pac with speed := 0.15 } }
    else
      { s with
        activePowerUp := (s.powerUps.getD i defaultPowerUp).type,
        powerUpTimer := 5,
        powerUps := s.powerUps.set i
          { s.powerUps.getD i defaultPowerUp with active := false },
        score := s.score + 50 }

/-- Phase 4: power-up pickup at the avatar cell. -/
def phasePower (s : GState) : GState :=
  if s.board (trunc s.pac.y) (trunc s.pac.x) = Cell.power then
    collectPower
      { s with
        board := updateBoard s.board (trunc s.pac.y) (trunc s.pac.x)
          Cell.empty }
      (trunc s.pac.y) (trunc s.pac.x)
  else s

/-- Phase 5: the active power-up countdown; on crossing to at most 0 the
effect slot is cleared and the base avatar speed restored.  When the
countdown is already at most 0 the phase changes nothing. -/
def phaseTimer (s : GState) : GState :=
  if 0 < s.powerUpTimer then
    (if s.powerUpTimer - 0.016 ≤ 0 then
      { s with
        powerUpTimer := s.powerUpTimer - 0.016,
        activePowerUp := -1,
        pac := { s.pac with speed := 0.1 } }
     else { s with powerUpTimer := s.powerUpTimer - 0.016 })
  else s

/-- Phase 6: the ghost loop. -/
def phaseGhosts (rnds : List (ℕ × ℕ)) (s : GState) : GState :=
  { s with
    ghosts :=
      (stepGhosts s.activePowerUp s.gameTime s.pac s.board rnds s.ghosts).1 }

/-- The board accesses performed by the ghost loop. -/
def ghostAccesses (rnds : List (ℕ × ℕ)) (s : GState) : List (ℤ × ℤ) :=
  (stepGhosts s.activePowerUp s.gameTime s.pac s.board rnds s.ghosts).2

/-- One iteration of the collision loop for pursuer index i: on
proximity, either the invincible branch (teleport that pursuer to the
centre, award 100 points) or the life-loss branch (decrement lives,
reset the avatar and re-create all pursuers, and on reaching zero
lives transition to GAMEOVER and save the high score). -/
def collideOne (s : GState) (i : ℕ) : GState :=
  if |s.pac.x - (s.ghosts.getD i defaultGhost).x| < 0.6 ∧
     |s.pac.y - (s.ghosts.getD i defaultGhost).y| < 0.6 then
    if s.activePowerUp = 0 then
      { s with
        ghosts := s.ghosts.set i
          { s.ghosts.getD i defaultGhost with x := 10, y := 10 },
        score := s.score + 100 }
    else
      (if s.lives - 1 ≤ 0 then
        { s with
          lives := s.lives - 1,
          pac := { s.pac with x := 1, y := 1 },
          ghosts := initGhosts,
          gameState := GameState.GAMEOVER,
          highScore := (saveHighScore s.score s.highScore).1 }
       else
        { s with
          lives := s.lives - 1,
          pac := { s.pac with x := 1, y := 1 },
          ghosts := initGhosts })
  else s

/-- Phase 7: the collision loop over all pursuer indices. -/
def collisionPhase (s : GState) : GState :=
  (List.range s.ghosts.length).foldl collideOne s

/-- allPelletsEaten: scans the whole 20x20 board for a remaining
pellet. -/
def allPelletsEaten (b : Board) : Bool :=
  (List.range 20).all fun i =>
    (List.range 20).all fun j => !((b (i : ℤ) (j : ℤ)) == Cell.pellet)

/-- Phase 8: the win check, run unconditionally at the end of each
in-progress tick; it overwrites whatever the collision loop left in
gameState. -/
def phaseWin (s : GState) : GState :=
  if allPelletsEaten s.board then
    { s with
      gameState := GameState.WIN,
      highScore := (saveHighScore s.score s.highScore).1 }
  else s

/-- updateGame: the per-tick orchestrator; a no-op unless PLAYING. -/
def updateGame (s : GState) (rnds : List (ℕ × ℕ)) : GState :=
  if s.gameState = GameState.PLAYING then
    phaseWin (collisionPhase (phaseGhosts rnds
      (phaseTimer (phasePower (phaseEat (phaseMove (phaseFrame s)))))))
  else s

/-- The truncated board indices used by every dynamic board access of a
tick: the avatar wall check, the pellet read and the power-up read of
the avatar cell, and each pursuer wall check. -/
def tickAccesses (s : GState) (rnds : List (ℕ × ℕ)) : List (ℤ × ℤ) :=
  if s.gameState = GameState.PLAYING then
    moveAccess (phaseFrame s) ::
    cellAccess (phaseMove (phaseFrame s)) ::
    cellAccess (phaseMove (phaseFrame s)) ::
    ghostAccesses rnds
      (phaseTimer (phasePower (phaseEat (phaseMove (phaseFrame s)))))
  else []

/-- The number of pellet cells on the 20x20 board. -/
def pelletCount (b : Board) : ℕ :=
  ((Finset.range 20 ×ˢ Finset.range 20).filter
    (fun p : ℕ × ℕ => b (p.1 : ℤ) (p.2 : ℤ) = Cell.pellet)).card

/-- The proximity condition of the collision loop for pursuer i. -/
def nearGhost (s : GState) (i : ℕ) : Prop :=
  |s.pac.x - (s.ghosts.getD i defaultGhost).x| < 0.6 ∧
  |s.pac.y - (s.ghosts.getD i defaultGhost).y| < 0.6

instance (s : GState) (i : ℕ) : Decidable (nearGhost s i) := by
  unfold nearGhost; infer_instance

-- ---------------------------------------------------------------------
-- Predicates for the bounds-safety claim
-- ---------------------------------------------------------------------

/-- The border cells of the board are walls (established by initBoard
and preserved by the tick, which only ever overwrites pellet or marker
cells with empty). -/
def bordersIntact (b : Board) : Prop :=
  ∀ i : ℕ, i < 20 → ∀ j : ℕ, j < 20 →
    (i = 0 ∨ i = 19 ∨ j = 0 ∨ j = 19) → b (i : ℤ) (j : ℤ) = Cell.wall

instance (b : Board) : Decidable (bordersIntact b) := by
  unfold bordersIntact; infer_instance

/-- A continuous coordinate pair lying strictly inside the border ring:
its truncated cell indices land in 1..18. -/
def posInGrid (x y : ℚ) : Prop := 1 ≤ x ∧ x < 19 ∧ 1 ≤ y ∧ y < 19

instance (x y : ℚ) : Decidable (posInGrid x y) := by
  unfold posInGrid; infer_instance

/-- A row-column pair within the bounds of the 20x20 array. -/
def accessInBounds (p : ℤ × ℤ) : Prop :=
  0 ≤ p.1 ∧ p.1 ≤ 19 ∧ 0 ≤ p.2 ∧ p.2 ≤ 19

instance (p : ℤ × ℤ) : Decidable (accessInBounds p) := by
  unfold accessInBounds; infer_instance

/-- The bounds-safety property exactly as the claim states it: from any
in-progress state whose actors are inside the bordered grid (the
configuration session reset establishes and the wall-checked movement
rule is claimed to maintain), every board access of the tick is within
the 20x20 array. -/
def boundedAccessClaim : Prop :=
  ∀ (s : GState) (rnds : List (ℕ × ℕ)),
    bordersIntact s.board →
    posInGrid s.pac.x s.pac.y →
    (∀ g ∈ s.ghosts, posInGrid g.x g.y) →
    ∀ p ∈ tickAccesses s rnds, accessInBounds p

-- ---------------------------------------------------------------------
-- Concrete states used by witnesses and counterexamples
-- ---------------------------------------------------------------------

/-- A freshly reset session switched to PLAYING (the SPACE key path). -/
def initialState : GState := { resetGame 0 with gameState := GameState.PLAYING }

/-- A PLAYING state with the Freeze effect active (countdown well above
one tick) and the first pursuer adjacent to the avatar. -/
def sFreeze : GState :=
  { initialState with
    activePowerUp := 1,
    powerUpTimer := 3,
    pac := { x := 1.5, y := 1.5, dirX := 0, dirY := 0, speed := 0.1 },
    ghosts :=
      [ { x := 1.2, y := 1.5, speed := 0.04,  behavior := 0, specialTimer := 0 },
        { x := 1,   y := 18,  speed := 0.035, behavior := 1, specialTimer := 0 },
        { x := 18,  y := 1,   speed := 0.038, behavior := 2, specialTimer := 0 },
        { x := 10,  y := 10,  speed := 0.03,  behavior := 3, specialTimer := 0 } ] }

/-- A PLAYING state in which the first pursuer has a ramped-up speed of
0.05 and sits adjacent to the avatar, so the tick ends in a capture. -/
def sSpeed : GState :=
  { initialState with
    gameTime := 1,
    frameCount := 5,
    pac := { x := 1.5, y := 1.5, dirX := 0, dirY := 0, speed := 0.1 },
    ghosts :=
      [ { x := 1.2,  y := 1.5, speed := 0.05,  behavior := 0, specialTimer := 0 },
        { x := 4.5,  y := 5.5, speed := 0.035, behavior := 1, specialTimer := 0 },
        { x := 5.75, y := 4.5, speed := 0.038, behavior := 2, specialTimer := 0 },
        { x := 4.5,  y := 1.5, speed := 0.03,  behavior := 3, specialTimer := 1.5 } ] }

/-- A walled board whose only pellet lies at cell (2,2). -/
def lastPelletBoard : Board := fun i j =>
  if i = 2 ∧ j = 2 then Cell.pellet
  else if i ≤ 0 ∨ j ≤ 0 ∨ 19 ≤ i ∨ 19 ≤ j then Cell.wall
  else Cell.empty

/-- A PLAYING state on its last life and last pellet: the avatar eats
the final pellet this very tick while the first pursuer captures it. -/
def sLast : GState :=
  { initialState with
    board := lastPelletBoard,
    lives := 1,
    pac := { x := 2.5, y := 2.5, dirX := 0, dirY := 0, speed := 0.1 },
    ghosts :=
      [ { x := 2.2,  y := 2.5, speed := 0.04,  behavior := 0, specialTimer := 0 },
        { x := 6.5,  y := 5.5, speed := 0.035, behavior := 1, specialTimer := 0 },
        { x := 6.76, y := 5.5, speed := 0.038, behavior := 2, specialTimer := 0 },
        { x := 5.5,  y := 2.5, speed := 0.03,  behavior := 3, specialTimer := 1.5 } ] }

/-- A PLAYING state on the initial board with the avatar standing on a
pellet cell and every pursuer far away. -/
def sEat : GState :=
  { initialState with
    pac := { x := 2.5, y := 2.5, dirX := 0, dirY := 0, speed := 0.1 },
    ghosts :=
      [ { x := 6.5,   y := 5.5,   speed := 0.04,  behavior := 0, specialTimer := 0 },
        { x := 5.5,   y := 6.5,   speed := 0.035, behavior := 1, specialTimer := 0 },
        { x := 1.532, y := 3.524, speed := 0.038, behavior := 2, specialTimer := 0 },
        { x := 5.5,   y := 2.5,   speed := 0.03,  behavior := 3, specialTimer := 1.5 } ] }

/-- A PLAYING state whose actors are all inside the bordered grid but
whose ambusher pursuer has a ramped speed of 1.2 cells per tick: its
wall check this tick reads column index 20, outside the array. -/
def sField : GState :=
  { initialState with
    gameTime := 1,
    frameCount := 5,
    pac := { x := 18.5, y := 10.5, dirX := 1, dirY := 0, speed := 0.1 },
    ghosts :=
      [ { x := 18.6, y := 10.5, speed := 0.04,  behavior := 0, specialTimer := 0 },
        { x := 18.9, y := 10.5, speed := 1.2,   behavior := 1, specialTimer := 0 },
        { x := 15.6, y := 6.5,  speed := 0.038, behavior := 2, specialTimer := 0 },
        { x := 10.5, y := 13.5, speed := 0.03,  behavior := 3, specialTimer := 1.5 } ] }

/-- A fixed avatar used by the Random-pursuer target scenario. -/
def pacStill : Pacman := { x := 5, y := 5, dirX := 0, dirY := 0, speed := 0.1 }

/-- The Random pursuer at its session start values. -/
def clyde0 : Ghost :=
  { x := 10, y := 10, speed := 0.03, behavior := 3, specialTimer := 0 }

/-- A Random pursuer whose timer sits outside the redraw window. -/
def clyde1 : Ghost :=
  { x := 4.5, y := 1.5, speed := 0.03, behavior := 3, specialTimer := 1.5 }

/-- The sFreeze configuration with Invincibility active instead of
Freeze: the adjacent first pursuer is captured while invincible. -/
def sInv : GState := { sFreeze with activePowerUp := 0 }

/-- A state whose active power-up countdown is about to expire. -/
def sExpire : GState :=
  { initialState with powerUpTimer := 0.01, activePowerUp := 2 }

/-- A board with no pellets left (walls on the border ring only). -/
def wonBoard : Board := fun i j =>
  if i ≤ 0 ∨ j ≤ 0 ∨ 19 ≤ i ∨ 19 ≤ j then Cell.wall else Cell.empty

/-- A cleared session about to take the win transition with a final
score above the stored best. -/
def sWon : GState :=
  { initialState with board := wonBoard, score := 120, highScore := 50 }

-- ---------------------------------------------------------------------
-- Helper lemmas: integer and rational square roots
-- ---------------------------------------------------------------------

set_option maxRecDepth 100000

theorem isqrtGo_spec (n : ℕ) : ∀ (fuel r : ℕ), r * r ≤ n →
    isqrtGo n fuel r * isqrtGo n fuel r ≤ n ∧
      (n < (isqrtGo n fuel r + 1) * (isqrtGo n fuel r + 1) ∨
        isqrtGo n fuel r = r + fuel) := by
  intro fuel
  induction fuel with
  | zero => intro r h; exact ⟨h, Or.inr rfl⟩
  | succ m ih =>
    intro r h
    by_cases hstep : (r + 1) * (r + 1) ≤ n
    · have := ih (r + 1) hstep
      constructor
      · simpa [isqrtGo, hstep] using this.1
      · rcases this.2 with h1 | h1
        · exact Or.inl (by simpa [isqrtGo, hstep] using h1)
        · refine Or.inr ?_
          simp only [isqrtGo, if_pos hstep]
          omega
    · constructor
      · simpa [isqrtGo, hstep] using h
      · exact Or.inl (by simp only [isqrtGo, if_neg hstep]; omega)

theorem isqrt_le (n : ℕ) : isqrt n * isqrt n ≤ n :=
  (isqrtGo_spec n n 0 (by omega)).1

theorem lt_isqrt_succ (n : ℕ) : n < (isqrt n + 1) * (isqrt n + 1) := by
  rcases (isqrtGo_spec n n 0 (by omega)).2 with h | h
  · exact h
  · have hle : isqrt n * isqrt n ≤ n := isqrt_le n
    rw [isqrt] at *
    nlinarith [h]

theorem isqrtUp_sq_ge (n : ℕ) : n ≤ isqrtUp n * isqrtUp n := by
  unfold isqrtUp
  by_cases h : isqrt n * isqrt n = n
  · simp [h]
  · have := lt_isqrt_succ n
    simp only [if_neg h]
    omega

theorem isqrtUp_pos (n : ℕ) (hn : 0 < n) : 0 < isqrtUp n := by
  unfold isqrtUp
  by_cases h : isqrt n * isqrt n = n
  · simp only [if_pos h]
    by_contra hz
    push_neg at hz
    interval_cases hi : isqrt n
    · omega
  · simp only [if_neg h]; omega

theorem ratSqrtUp_nonneg (q : ℚ) : 0 ≤ ratSqrtUp q := by
  unfold ratSqrtUp
  by_cases h : q ≤ 0
  · simp [h]
  · simp only [if_neg h]
    positivity

theorem ratSqrtUp_pos (q : ℚ) (hq : 0 < q) : 0 < ratSqrtUp q := by
  unfold ratSqrtUp
  have hq' : ¬ q ≤ 0 := not_le.mpr hq
  simp only [if_neg hq']
  have hnum : 0 < q.num := Rat.num_pos.mpr hq
  have hden : (0 : ℤ) < (q.den : ℤ) := by exact_mod_cast q.den_pos
  have hm : 0 < (q.num * (q.den : ℤ)).toNat := by
    have : 0 < q.num * (q.den : ℤ) := mul_pos hnum hden
    omega
  have h1 : 0 < isqrtUp (q.num * (q.den : ℤ)).toNat := isqrtUp_pos _ hm
  have h2 : (0 : ℚ) < (isqrtUp (q.num * (q.den : ℤ)).toNat : ℚ) := by
    exact_mod_cast h1
  positivity

theorem ratSqrtUp_sq_ge (q : ℚ) (hq : 0 < q) : q ≤ ratSqrtUp q * ratSqrtUp q := by
  unfold ratSqrtUp
  have hq' : ¬ q ≤ 0 := not_le.mpr hq
  simp only [if_neg hq']
  have hnum : 0 < q.num := Rat.num_pos.mpr hq
  have hden : (0 : ℤ) < (q.den : ℤ) := by exact_mod_cast q.den_pos
  have hm : ((q.num * (q.den : ℤ)).toNat : ℤ) = q.num * (q.den : ℤ) := by
    have : 0 < q.num * (q.den : ℤ) := mul_pos hnum hden
    omega
  have hsq : ((q.num * (q.den : ℤ)).toNat : ℤ) ≤
      (isqrtUp (q.num * (q.den : ℤ)).toNat : ℤ) *
      (isqrtUp (q.num * (q.den : ℤ)).toNat : ℤ) := by
    exact_mod_cast isqrtUp_sq_ge (q.num * (q.den : ℤ)).toNat
  rw [hm] at hsq
  have hsqQ : (q.num : ℚ) * (q.den : ℚ) ≤
      (isqrtUp (q.num * (q.den : ℤ)).toNat : ℚ) *
      (isqrtUp (q.num * (q.den : ℤ)).toNat : ℚ) := by
    exact_mod_cast hsq
  have hdq : (0 : ℚ) < (q.den : ℚ) := by exact_mod_cast q.den_pos
  rw [div_mul_div_comm, le_div_iff₀ (by positivity)]
  have hqnd : q * (q.den : ℚ) = (q.num : ℚ) := by
    rw [mul_comm]
    exact_mod_cast Rat.den_mul_eq_num q
  calc q * ((q.den : ℚ) * (q.den : ℚ))
      = (q * (q.den : ℚ)) * (q.den : ℚ) := by ring
    _ = (q.num : ℚ) * (q.den : ℚ) := by rw [hqnd]
    _ ≤ _ := hsqQ

-- ---------------------------------------------------------------------
-- Helper lemmas: truncation toward zero
-- ---------------------------------------------------------------------

theorem trunc_of_nonneg (q : ℚ) (h : 0 ≤ q) : trunc q = ⌊q⌋ := by
  unfold trunc; exact if_pos h

theorem trunc_bound (q : ℚ) (h0 : -1 < q) (h1 : q < 20) :
    0 ≤ trunc q ∧ trunc q ≤ 19 := by
  unfold trunc
  by_cases h : 0 ≤ q
  · rw [if_pos h]
    constructor
    · exact Int.floor_nonneg.mpr h
    · have : ⌊q⌋ < 20 := by
        rw [Int.floor_lt]
        exact_mod_cast h1
      omega
  · rw [if_neg h]
    push_neg at h
    have hfl : ⌊-q⌋ = 0 := by
      rw [Int.floor_eq_zero_iff, Set.mem_Ico]
      exact ⟨by linarith, by linarith⟩
    omega

theorem trunc_inner (q : ℚ) (h0 : 1 ≤ q) (h1 : q < 19) :
    1 ≤ trunc q ∧ trunc q ≤ 18 := by
  rw [trunc_of_nonneg q (by linarith)]
  constructor
  · exact Int.le_floor.mpr (by exact_mod_cast h0)
  · have : ⌊q⌋ < 19 := by
      rw [Int.floor_lt]
      exact_mod_cast h1
    omega

theorem inner_of_trunc (q : ℚ) (h1 : 1 ≤ trunc q) (h2 : trunc q ≤ 18) :
    1 ≤ q ∧ q < 19 := by
  unfold trunc at h1 h2
  by_cases h : 0 ≤ q
  · rw [if_pos h] at h1 h2
    constructor
    · have := Int.le_floor.mp h1
      exact_mod_cast this
    · have : (⌊q⌋ : ℚ) ≤ 18 := by exact_mod_cast h2
      have hq := Int.lt_floor_add_one q
      linarith
  · rw [if_neg h] at h1
    push_neg at h
    have : 0 ≤ ⌊-q⌋ := Int.floor_nonneg.mpr (by linarith)
    omega

-- ---------------------------------------------------------------------
-- Helper lemmas: pellet counting
-- ---------------------------------------------------------------------

theorem pelletCount_le_of_pointwise (b c : Board)
    (h : ∀ i j : ℤ, c i j = Cell.pellet → b i j = Cell.pellet) :
    pelletCount c ≤ pelletCount b := by
  unfold pelletCount
  apply Finset.card_le_card
  intro p hp
  rw [Finset.mem_filter] at hp ⊢
  exact ⟨hp.1, h _ _ hp.2⟩

theorem updateBoard_pellet_pointwise (b : Board) (r c : ℤ) (i j : ℤ) :
    updateBoard b r c Cell.empty i j = Cell.pellet → b i j = Cell.pellet := by
  unfold updateBoard
  by_cases h : i = r ∧ j = c
  · rw [if_pos h]; intro hh; cases hh
  · rw [if_neg h]; exact id

theorem pelletCount_update_lt (b : Board) (r c : ℤ)
    (hr0 : 0 ≤ r) (hr1 : r ≤ 19) (hc0 : 0 ≤ c) (hc1 : c ≤ 19)
    (h : b r c = Cell.pellet) :
    pelletCount (updateBoard b r c Cell.empty) < pelletCount b := by
  unfold pelletCount
  apply Finset.card_lt_card
  rw [Finset.ssubset_iff_of_subset]
  · refine ⟨(r.toNat, c.toNat), ?_, ?_⟩
    · rw [Finset.mem_filter]
      constructor
      · rw [Finset.mem_product]
        constructor <;> (rw [Finset.mem_range]; omega)
      · have hrr : ((r.toNat : ℤ)) = r := by omega
        have hcc : ((c.toNat : ℤ)) = c := by omega
        simpa [hrr, hcc] using h
    · rw [Finset.mem_filter]
      intro hmem
      have hrr : ((r.toNat : ℤ)) = r := by omega
      have hcc : ((c.toNat : ℤ)) = c := by omega
      have := hmem.2
      simp only [hrr, hcc, updateBoard, and_self, if_pos] at this
      cases this
  · intro p hp
    rw [Finset.mem_filter] at hp ⊢
    exact ⟨hp.1, updateBoard_pellet_pointwise b r c _ _ hp.2⟩

theorem allPelletsEaten_iff (b : Board) :
    allPelletsEaten b = true ↔ pelletCount b = 0 := by
  unfold allPelletsEaten pelletCount
  rw [Finset.card_eq_zero, Finset.filter_eq_empty_iff]
  rw [List.all_eq_true]
  constructor
  · intro h p hp
    rw [Finset.mem_product, Finset.mem_range, Finset.mem_range] at hp
    have h1 := h p.1 (List.mem_range.mpr hp.1)
    rw [List.all_eq_true] at h1
    have h2 := h1 p.2 (List.mem_range.mpr hp.2)
    simpa using h2
  · intro h i hi
    rw [List.all_eq_true]
    intro j hj
    rw [List.mem_range] at hi hj
    have hmem : (i, j) ∈ Finset.range 20 ×ˢ Finset.range 20 := by
      rw [Finset.mem_product]
      exact ⟨Finset.mem_range.mpr hi, Finset.mem_range.mpr hj⟩
    have := h hmem
    simpa using this

-- ---------------------------------------------------------------------
-- Helper lemmas: which fields each phase can touch
-- ---------------------------------------------------------------------

theorem phaseFrame_eq (s : GState) :
    (phaseFrame s).board = s.board ∧ (phaseFrame s).pac = s.pac ∧
    (phaseFrame s).ghosts = s.ghosts ∧
    (phaseFrame s).gameState = s.gameState ∧
    (phaseFrame s).lives = s.lives ∧
    (phaseFrame s).totalPellets = s.totalPellets ∧
    (phaseFrame s).activePowerUp = s.activePowerUp ∧
    (phaseFrame s).powerUpTimer = s.powerUpTimer := by
  unfold phaseFrame
  split <;> exact ⟨rfl, rfl, rfl, rfl, rfl, rfl, rfl, rfl⟩

theorem phaseMove_eq (s : GState) :
    (phaseMove s).board = s.board ∧ (phaseMove s).ghosts = s.ghosts ∧
    (phaseMove s).gameState = s.gameState ∧
    (phaseMove s).lives = s.lives ∧
    (phaseMove s).totalPellets = s.totalPellets ∧
    (phaseMove s).activePowerUp = s.activePowerUp ∧
    (phaseMove s).powerUpTimer = s.powerUpTimer ∧
    (phaseMove s).gameTime = s.gameTime ∧
    (phaseMove s).pac.speed = s.pac.speed := by
  unfold phaseMove
  split <;> exact ⟨rfl, rfl, rfl, rfl, rfl, rfl, rfl, rfl, rfl⟩

theorem phaseEat_eq (s : GState) :
    (phaseEat s).pac = s.pac ∧ (phaseEat s).ghosts = s.ghosts ∧
    (phaseEat s).gameState = s.gameState ∧
    (phaseEat s).lives = s.lives ∧
    (phaseEat s).totalPellets = s.totalPellets ∧
    (phaseEat s).activePowerUp = s.activePowerUp ∧
    (phaseEat s).powerUpTimer = s.powerUpTimer ∧
    (phaseEat s).gameTime = s.gameTime := by
  unfold phaseEat
  split <;> exact ⟨rfl, rfl, rfl, rfl, rfl, rfl, rfl, rfl⟩

theorem collectPower_eq (s : GState) (pr pc : ℤ) :
    (collectPower s pr pc).board = s.board ∧
    (collectPower s pr pc).ghosts = s.ghosts ∧
    (collectPower s pr pc).gameState = s.gameState ∧
    (collectPower s pr pc).lives = s.lives ∧
    (collectPower s pr pc).totalPellets = s.totalPellets ∧
    (collectPower s pr pc).gameTime = s.gameTime ∧
    (collectPower s pr pc).pac.x = s.pac.x ∧
    (collectPower s pr pc).pac.y = s.pac.y := by
  unfold collectPower
  cases hf : s.powerUps.findIdx?
      (fun p => trunc p.x == pc && trunc p.y == pr && p.active) with
  | none => exact ⟨rfl, rfl, rfl, rfl, rfl, rfl, rfl, rfl⟩
  | some i =>
    simp only
    split <;> exact ⟨rfl, rfl, rfl, rfl, rfl, rfl, rfl, rfl⟩

theorem phasePower_eq (s : GState) :
    (phasePower s).ghosts = s.ghosts ∧
    (phasePower s).gameState = s.gameState ∧
    (phasePower s).lives = s.lives ∧
    (phasePower s).totalPellets = s.totalPellets ∧
    (phasePower s).gameTime = s.gameTime ∧
    (phasePower s).pac.x = s.pac.x ∧
    (phasePower s).pac.y = s.pac.y := by
  unfold phasePower
  split
  · have h := collectPower_eq
      { s with
        board := updateBoard s.board (trunc s.pac.y) (trunc s.pac.x)
          Cell.empty }
      (trunc s.pac.y) (trunc s.pac.x)
    exact ⟨h.2.1, h.2.2.1, h.2.2.2.1, h.2.2.2.2.1, h.2.2.2.2.2.1,
      h.2.2.2.2.2.2.1, h.2.2.2.2.2.2.2⟩
  · exact ⟨rfl, rfl, rfl, rfl, rfl, rfl, rfl⟩

theorem phaseTimer_eq (s : GState) :
    (phaseTimer s).board = s.board ∧ (phaseTimer s).ghosts = s.ghosts ∧
    (phaseTimer s).gameState = s.gameState ∧
    (phaseTimer s).lives = s.lives ∧
    (phaseTimer s).totalPellets = s.totalPellets ∧
    (phaseTimer s).gameTime = s.gameTime ∧
    (phaseTimer s).pac.x = s.pac.x ∧
    (phaseTimer s).pac.y = s.pac.y ∧
    (phaseTimer s).score = s.score := by
  unfold phaseTimer
  split
  · split <;> exact ⟨rfl, rfl, rfl, rfl, rfl, rfl, rfl, rfl, rfl⟩
  · exact ⟨rfl, rfl, rfl, rfl, rfl, rfl, rfl, rfl, rfl⟩

theorem phaseGhosts_eq (rnds : List (ℕ × ℕ)) (s : GState) :
    (phaseGhosts rnds s).board = s.board ∧
    (phaseGhosts rnds s).pac = s.pac ∧
    (phaseGhosts rnds s).gameState = s.gameState ∧
    (phaseGhosts rnds s).lives = s.lives ∧
    (phaseGhosts rnds s).totalPellets = s.totalPellets ∧
    (phaseGhosts rnds s).activePowerUp = s.activePowerUp ∧
    (phaseGhosts rnds s).score = s.score := by
  exact ⟨rfl, rfl, rfl, rfl, rfl, rfl, rfl⟩

theorem collideOne_eq (s : GState) (i : ℕ) :
    (collideOne s i).board = s.board ∧
    (collideOne s i).totalPellets = s.totalPellets ∧
    (collideOne s i).lives ≤ s.lives ∧
    ((collideOne s i).gameState = s.gameState ∨
      (collideOne s i).gameState = GameState.GAMEOVER) := by
  unfold collideOne
  split
  · split
    · exact ⟨rfl, rfl, le_refl _, Or.inl rfl⟩
    · split
      · exact ⟨rfl, rfl, by show s.lives - 1 ≤ s.lives; omega, Or.inr rfl⟩
      · exact ⟨rfl, rfl, by show s.lives - 1 ≤ s.lives; omega, Or.inl rfl⟩
  · exact ⟨rfl, rfl, le_refl _, Or.inl rfl⟩

theorem foldl_collide_eq (l : List ℕ) (s : GState) :
    ((l.foldl collideOne s).board = s.board ∧
      (l.foldl collideOne s).totalPellets = s.totalPellets ∧
      (l.foldl collideOne s).lives ≤ s.lives) ∧
    ((l.foldl collideOne s).gameState = s.gameState ∨
      (l.foldl collideOne s).gameState = GameState.GAMEOVER) := by
  induction l generalizing s with
  | nil => exact ⟨⟨rfl, rfl, le_refl _⟩, Or.inl rfl⟩
  | cons a t ih =>
    have h1 := collideOne_eq s a
    have h2 := ih (collideOne s a)
    simp only [List.foldl_cons]
    refine ⟨⟨?_, ?_, ?_⟩, ?_⟩
    · rw [h2.1.1, h1.1]
    · rw [h2.1.2.1, h1.2.1]
    · exact le_trans h2.1.2.2 h1.2.2.1
    · rcases h2.2 with h | h
      · rcases h1.2.2.2 with h' | h'
        · exact Or.inl (h.trans h')
        · exact Or.inr (h.trans h')
      · exact Or.inr h

theorem collisionPhase_eq (s : GState) :
    (collisionPhase s).board = s.board ∧
    (collisionPhase s).totalPellets = s.totalPellets ∧
    (collisionPhase s).lives ≤ s.lives ∧
    ((collisionPhase s).gameState = s.gameState ∨
      (collisionPhase s).gameState = GameState.GAMEOVER) := by
  have h := foldl_collide_eq (List.range s.ghosts.length) s
  exact ⟨h.1.1, h.1.2.1, h.1.2.2, h.2⟩

theorem phaseWin_eq (s : GState) :
    (phaseWin s).board = s.board ∧
    (phaseWin s).totalPellets = s.totalPellets ∧
    (phaseWin s).lives = s.lives ∧
    (phaseWin s).gameState =
      (if allPelletsEaten s.board then GameState.WIN else s.gameState) := by
  unfold phaseWin
  split <;> exact ⟨rfl, rfl, rfl, rfl⟩

theorem phaseEat_pellet_mono (s : GState) :
    pelletCount (phaseEat s).board ≤ pelletCount s.board := by
  unfold phaseEat
  split
  · exact pelletCount_le_of_pointwise _ _
      (updateBoard_pellet_pointwise s.board _ _)
  · exact le_refl _

theorem phasePower_board (s : GState) :
    (phasePower s).board = s.board ∨
    (phasePower s).board =
      updateBoard s.board (trunc s.pac.y) (trunc s.pac.x) Cell.empty := by
  unfold phasePower
  split
  · exact Or.inr (collectPower_eq _ _ _).1
  · exact Or.inl rfl

theorem phasePower_pellet_mono (s : GState) :
    pelletCount (phasePower s).board ≤ pelletCount s.board := by
  rcases phasePower_board s with h | h <;> rw [h]
  · exact pelletCount_le_of_pointwise _ _
      (updateBoard_pellet_pointwise s.board _ _)

/-- C1: the number of pellet cells never increases across a tick, and a
tick from an in-progress state ends in the WIN outcome exactly when the
board it leaves behind has pellet count zero. -/
theorem pellet_monotone_and_win (s : GState) (rnds : List (ℕ × ℕ)) :
    pelletCount (updateGame s rnds).board ≤ pelletCount s.board ∧
    (s.gameState = GameState.PLAYING →
      ((updateGame s rnds).gameState = GameState.WIN ↔
        pelletCount (updateGame s rnds).board = 0)) := by
  by_cases hmode : s.gameState = GameState.PLAYING
  · unfold updateGame
    rw [if_pos hmode]
    have hb1 : (phaseFrame s).board = s.board := (phaseFrame_eq s).1
    have hb2 : (phaseMove (phaseFrame s)).board = (phaseFrame s).board :=
      (phaseMove_eq (phaseFrame s)).1
    have hbe : pelletCount (phaseEat (phaseMove (phaseFrame s))).board ≤
        pelletCount (phaseMove (phaseFrame s)).board :=
      phaseEat_pellet_mono (phaseMove (phaseFrame s))
    have hbp : pelletCount
        (phasePower (phaseEat (phaseMove (phaseFrame s)))).board ≤
        pelletCount (phaseEat (phaseMove (phaseFrame s))).board :=
      phasePower_pellet_mono (phaseEat (phaseMove (phaseFrame s)))
    have hb5 : (phaseTimer (phasePower (phaseEat (phaseMove
        (phaseFrame s))))).board =
        (phasePower (phaseEat (phaseMove (phaseFrame s)))).board :=
      (phaseTimer_eq _).1
    have hb6 : (phaseGhosts rnds (phaseTimer (phasePower (phaseEat
        (phaseMove (phaseFrame s)))))).board =
        (phaseTimer (phasePower (phaseEat (phaseMove
          (phaseFrame s))))).board :=
      (phaseGhosts_eq _ _).1
    have hb7 : (collisionPhase (phaseGhosts rnds (phaseTimer (phasePower
        (phaseEat (phaseMove (phaseFrame s))))))).board =
        (phaseGhosts rnds (phaseTimer (phasePower (phaseEat (phaseMove
          (phaseFrame s)))))).board :=
      (collisionPhase_eq _).1
    have hbw : (phaseWin (collisionPhase (phaseGhosts rnds (phaseTimer
        (phasePower (phaseEat (phaseMove (phaseFrame s)))))))).board =
        (collisionPhase (phaseGhosts rnds (phaseTimer (phasePower
          (phaseEat (phaseMove (phaseFrame s))))))).board :=
      (phaseWin_eq _).1
    constructor
    · rw [hbw, hb7, hb6, hb5]
      calc pelletCount
            (phasePower (phaseEat (phaseMove (phaseFrame s)))).board ≤
          pelletCount (phaseEat (phaseMove (phaseFrame s))).board := hbp
        _ ≤ pelletCount (phaseMove (phaseFrame s)).board := hbe
        _ = pelletCount s.board := by rw [hb2, hb1]
    · intro _
      have hmode6 : (phaseGhosts rnds (phaseTimer (phasePower (phaseEat
          (phaseMove (phaseFrame s)))))).gameState =
          GameState.PLAYING := by
        rw [(phaseGhosts_eq _ _).2.2.1, (phaseTimer_eq _).2.2.1,
          (phasePower_eq _).2.1, (phaseEat_eq _).2.2.1,
          (phaseMove_eq _).2.2.1, (phaseFrame_eq _).2.2.2.1, hmode]
      have hmode7 : (collisionPhase (phaseGhosts rnds (phaseTimer
          (phasePower (phaseEat (phaseMove (phaseFrame s))))))).gameState ≠
          GameState.WIN := by
        rcases (collisionPhase_eq (phaseGhosts rnds (phaseTimer (phasePower
            (phaseEat (phaseMove (phaseFrame s))))))).2.2.2 with h | h
        · rw [h, hmode6]; intro hc; cases hc
        · rw [h]; intro hc; cases hc
      have hwin := (phaseWin_eq (collisionPhase (phaseGhosts rnds
        (phaseTimer (phasePower (phaseEat (phaseMove
          (phaseFrame s)))))))).2.2.2
      by_cases hall : allPelletsEaten (collisionPhase (phaseGhosts rnds
          (phaseTimer (phasePower (phaseEat (phaseMove
            (phaseFrame s))))))).board = true
      · constructor
        · intro _
          rw [hbw]
          exact (allPelletsEaten_iff _).mp hall
        · intro _
          rw [hwin, if_pos hall]
      · constructor
        · intro hcontra
          rw [hwin, if_neg hall] at hcontra
          exact absurd hcontra hmode7
        · intro hzero
          rw [hbw] at hzero
          exact absurd ((allPelletsEaten_iff _).mpr hzero) hall
  · unfold updateGame
    rw [if_neg hmode]
    exact ⟨le_refl _, fun h => absurd h hmode⟩

/-- C1 witness: the property instantiated at a freshly started
session. -/
theorem pellet_monotone_and_win_witness :
    pelletCount (updateGame initialState []).board ≤
      pelletCount initialState.board ∧
    ((updateGame initialState []).gameState = GameState.WIN ↔
      pelletCount (updateGame initialState []).board = 0) :=
  ⟨(pellet_monotone_and_win initialState []).1,
    (pellet_monotone_and_win initialState []).2 rfl⟩

theorem getD_set_self {α : Type} (l : List α) (i : ℕ) (a d : α)
    (h : i < l.length) : (l.set i a).getD i d = a := by
  induction l generalizing i with
  | nil => simp at h
  | cons x t ih =>
    cases i with
    | zero => rfl
    | succ n =>
      simp only [List.set_cons_succ, List.getD_cons_succ]
      exact ih n (by simpa using h)

/-- C7: a capture while Invincibility is active never touches the
lives counter, awards exactly the fixed 100 point capture bonus, and
relocates the captured pursuer to the central start cell (10,10)
without removing it (the pursuer list keeps its length and the pursuer
keeps every other field). -/
theorem invincible_capture (s : GState) (i : ℕ)
    (hlen : i < s.ghosts.length)
    (hinv : s.activePowerUp = 0)
    (hnear : nearGhost s i) :
    (collideOne s i).lives = s.lives ∧
    (collideOne s i).score = s.score + 100 ∧
    (collideOne s i).ghosts.getD i defaultGhost =
      { s.ghosts.getD i defaultGhost with x := 10, y := 10 } ∧
    (collideOne s i).ghosts.length = s.ghosts.length ∧
    (collideOne s i).pac = s.pac ∧
    (collideOne s i).gameState = s.gameState := by
  unfold collideOne
  unfold nearGhost at hnear
  rw [if_pos hnear, if_pos hinv]
  refine ⟨rfl, rfl, ?_, by simp, rfl, rfl⟩
  exact getD_set_self s.ghosts i _ defaultGhost hlen

/-- C7 witness: the invincible capture evaluated on a concrete state
with the first pursuer adjacent to the avatar. -/
theorem invincible_capture_witness :
    (collideOne sInv 0).lives = sInv.lives ∧
    (collideOne sInv 0).score = sInv.score + 100 ∧
    (collideOne sInv 0).ghosts.getD 0 defaultGhost =
      { sInv.ghosts.getD 0 defaultGhost with x := 10, y := 10 } ∧
    (collideOne sInv 0).ghosts.length = sInv.ghosts.length ∧
    (collideOne sInv 0).pac = sInv.pac ∧
    (collideOne sInv 0).gameState = sInv.gameState :=
  invincible_capture sInv 0 (by with_unfolding_all decide) rfl
    (by with_unfolding_all decide)

/-- C8: when the countdown is positive and this tick crosses it to at
most zero, the effect slot is cleared and the avatar speed restored to
its base value in the same tick; and once the countdown is at most
zero the countdown phase is the identity, so the restoration cannot
repeat on later ticks. -/
theorem power_expiry (s : GState) :
    (0 < s.powerUpTimer → s.powerUpTimer - 0.016 ≤ 0 →
      (phaseTimer s).activePowerUp = -1 ∧
      (phaseTimer s).pac.speed = 0.1 ∧
      (phaseTimer s).powerUpTimer ≤ 0) ∧
    (s.powerUpTimer ≤ 0 → phaseTimer s = s) := by
  constructor
  · intro h1 h2
    unfold phaseTimer
    rw [if_pos h1, if_pos h2]
    exact ⟨rfl, rfl, h2⟩
  · intro h
    unfold phaseTimer
    rw [if_neg (not_lt.mpr h)]

/-- C8 witness: a countdown of 0.01 crosses to at most zero this tick
and clears the slot; a countdown already at zero changes nothing. -/
theorem power_expiry_witness :
    ((phaseTimer sExpire).activePowerUp = -1 ∧
      (phaseTimer sExpire).pac.speed = 0.1 ∧
      (phaseTimer sExpire).powerUpTimer ≤ 0) ∧
    phaseTimer initialState = initialState :=
  ⟨(power_expiry sExpire).1 (by with_unfolding_all decide)
      (by with_unfolding_all decide),
    (power_expiry initialState).2 (le_refl 0)⟩

/-- C9: the persisted best score defaults to 0 when the store is
missing or unreadable and otherwise yields the stored value (reading
never aborts: loadHighScore is total); saving writes the store exactly
when the final score exceeds the stored best, and the in-memory best
becomes the maximum of the two.  The win and game-over transitions
invoke exactly this save rule. -/
theorem highscore_persistence :
    loadHighScore none = 0 ∧
    (∀ v : ℤ, loadHighScore (some v) = v) ∧
    (∀ sc hs : ℤ, (saveHighScore sc hs).2 = true ↔ hs < sc) ∧
    (∀ sc hs : ℤ, (saveHighScore sc hs).1 = max hs sc) ∧
    (∀ t : GState, allPelletsEaten t.board = true →
      (phaseWin t).highScore = (saveHighScore t.score t.highScore).1) := by
  refine ⟨rfl, fun v => rfl, fun sc hs => ?_, fun sc hs => ?_, fun t ht => ?_⟩
  · unfold saveHighScore
    by_cases h : hs < sc
    · rw [if_pos h]
      exact ⟨fun _ => h, fun _ => rfl⟩
    · rw [if_neg h]
      constructor
      · intro hc
        exact absurd hc Bool.false_ne_true
      · intro hc
        exact absurd hc h
  · unfold saveHighScore
    by_cases h : hs < sc
    · rw [if_pos h]
      exact (max_eq_right (le_of_lt h)).symm
    · rw [if_neg h]
      exact (max_eq_left (not_lt.mp h)).symm
  · unfold phaseWin
    rw [if_pos ht]

/-- C2 counterexample: a state on its last life whose tick both
consumes the final pellet and suffers a non-invincible capture.  Lives
drop to zero, yet the tick does not stop at the Lost transition: the
win check still runs and overwrites the outcome, so the tick ends in
WIN, not GAMEOVER. -/
theorem lost_overwritten_by_win_cex :
    sLast.lives = 1 ∧ sLast.activePowerUp = -1 ∧
    (updateGame sLast []).lives = 0 ∧
    (updateGame sLast []).gameState = GameState.WIN ∧
    (updateGame sLast []).gameState ≠ GameState.GAMEOVER := by
  refine ⟨rfl, rfl, ?_, ?_, ?_⟩ <;> with_unfolding_all decide

/-- C2 amended: lives strictly decrease in a collision step exactly
when that pursuer is within the proximity threshold while Invincibility
is inactive; a capture on the last life sets the outcome to Lost at
that step; but the tick continues past the transition: the final win
check still executes (overwriting the outcome to Won whenever the board
finished the tick with no pellets), and across any full tick lives
never increase. -/
theorem lives_capture_lost (s : GState) (i : ℕ) (rnds : List (ℕ × ℕ)) :
    ((collideOne s i).lives < s.lives ↔
      (nearGhost s i ∧ s.activePowerUp ≠ 0)) ∧
    (nearGhost s i → s.activePowerUp ≠ 0 → s.lives = 1 →
      (collideOne s i).lives = 0 ∧
      (collideOne s i).gameState = GameState.GAMEOVER) ∧
    ((phaseWin s).gameState =
      (if allPelletsEaten s.board then GameState.WIN else s.gameState)) ∧
    (updateGame s rnds).lives ≤ s.lives := by
  refine ⟨?_, ?_, (phaseWin_eq s).2.2.2, ?_⟩
  · constructor
    · intro hlt
      unfold collideOne at hlt
      by_cases hnear : nearGhost s i
      · unfold nearGhost at hnear
        rw [if_pos hnear] at hlt
        by_cases hinv : s.activePowerUp = 0
        · rw [if_pos hinv] at hlt
          exact absurd hlt (lt_irrefl _)
        · exact ⟨hnear, hinv⟩
      · unfold nearGhost at hnear
        rw [if_neg hnear] at hlt
        exact absurd hlt (lt_irrefl _)
    · intro ⟨hnear, hinv⟩
      unfold collideOne
      unfold nearGhost at hnear
      rw [if_pos hnear, if_neg hinv]
      by_cases hz : s.lives - 1 ≤ 0
      · rw [if_pos hz]
        show s.lives - 1 < s.lives
        omega
      · rw [if_neg hz]
        show s.lives - 1 < s.lives
        omega
  · intro hnear hinv hone
    unfold collideOne
    unfold nearGhost at hnear
    rw [if_pos hnear, if_neg hinv, if_pos (by omega)]
    exact ⟨by show s.lives - 1 = 0; omega, rfl⟩
  · unfold updateGame
    by_cases hmode : s.gameState = GameState.PLAYING
    · rw [if_pos hmode]
      have h1 := (phaseFrame_eq s).2.2.2.2.1
      have h2 := (phaseMove_eq (phaseFrame s)).2.2.2.1
      have h3 := (phaseEat_eq (phaseMove (phaseFrame s))).2.2.2.1
      have h4 := (phasePower_eq (phaseEat (phaseMove (phaseFrame s)))).2.2.1
      have h5 := (phaseTimer_eq (phasePower (phaseEat (phaseMove
        (phaseFrame s))))).2.2.2.1
      have h6 := (phaseGhosts_eq rnds (phaseTimer (phasePower (phaseEat
        (phaseMove (phaseFrame s)))))).2.2.2.1
      have h7 := (collisionPhase_eq (phaseGhosts rnds (phaseTimer
        (phasePower (phaseEat (phaseMove (phaseFrame s))))))).2.2.1
      have h8 := (phaseWin_eq (collisionPhase (phaseGhosts rnds
        (phaseTimer (phasePower (phaseEat (phaseMove
          (phaseFrame s)))))))).2.2.1
      rw [h8]
      calc (collisionPhase (phaseGhosts rnds (phaseTimer (phasePower
            (phaseEat (phaseMove (phaseFrame s))))))).lives ≤
          (phaseGhosts rnds (phaseTimer (phasePower (phaseEat (phaseMove
            (phaseFrame s)))))).lives := h7
        _ = s.lives := by rw [h6, h5, h4, h3, h2, h1]
    · rw [if_neg hmode]

/-- C2 amended witness: the collision step of the sLast configuration
evaluated concretely: lives reach zero and the outcome is set to Lost
at that step. -/
theorem lives_capture_lost_witness :
    (collideOne sLast 0).lives = 0 ∧
    (collideOne sLast 0).gameState = GameState.GAMEOVER :=
  (lives_capture_lost sLast 0 []).2.1 (by with_unfolding_all decide)
    (by with_unfolding_all decide) rfl

/-- C3 counterexample: a tick spent entirely under the Freeze effect
(the countdown stays positive all tick) in which the first pursuer
nevertheless changes position, because the capture branch of the
collision loop re-creates every pursuer. -/
theorem freeze_position_change_cex :
    sFreeze.activePowerUp = 1 ∧
    (updateGame sFreeze []).activePowerUp = 1 ∧
    ((updateGame sFreeze []).ghosts.getD 0 defaultGhost).x ≠
      (sFreeze.ghosts.getD 0 defaultGhost).x := by
  refine ⟨rfl, ?_, ?_⟩ <;> with_unfolding_all decide

theorem updateGhost_frozen (gameTime : ℕ) (pac : Pacman) (b : Board)
    (g0 : Ghost) (rnd : ℕ × ℕ) (g : Ghost) :
    updateGhost 1 gameTime pac b g0 rnd g = (g, []) := by
  unfold updateGhost
  rw [if_pos rfl]

theorem stepGhostsRest_frozen (gameTime : ℕ) (pac : Pacman) (b : Board)
    (g0 : Ghost) : ∀ (rnds : List (ℕ × ℕ)) (gs : List Ghost),
    stepGhostsRest 1 gameTime pac b g0 rnds gs = (gs, []) := by
  intro rnds gs
  induction gs generalizing rnds with
  | nil => rfl
  | cons g t ih =>
    unfold stepGhostsRest
    rw [updateGhost_frozen, ih]
    rfl

theorem stepGhosts_frozen (gameTime : ℕ) (pac : Pacman) (b : Board)
    (rnds : List (ℕ × ℕ)) (gs : List Ghost) :
    stepGhosts 1 gameTime pac b rnds gs = (gs, []) := by
  cases gs with
  | nil => rfl
  | cons g t =>
    simp only [stepGhosts]
    rw [updateGhost_frozen, stepGhostsRest_frozen]
    rfl

/-- C3 amended: while Freeze is the active effect, the ghost-update
phase changes nothing at all (every pursuer keeps its position, speed
and timer, and no board access is made for any pursuer), regardless of
what any target computation would produce; pursuer positions can still
change within the same tick through the capture branch of the collision
loop, which re-creates all pursuers to their session start
records. -/
theorem freeze_ghost_phase (s : GState) (rnds : List (ℕ × ℕ)) (i : ℕ)
    (h : s.activePowerUp = 1) :
    phaseGhosts rnds s = s ∧
    ghostAccesses rnds s = [] ∧
    (nearGhost s i → (collideOne s i).ghosts = initGhosts) := by
  refine ⟨?_, ?_, ?_⟩
  · obtain ⟨bo, pa, gh, pu, pt, apu, sc, li, gt, fc, gs, tp, hsc⟩ := s
    simp only at h
    subst h
    unfold phaseGhosts
    rw [stepGhosts_frozen]
  · unfold ghostAccesses
    rw [h, stepGhosts_frozen]
  · intro hnear
    unfold collideOne
    unfold nearGhost at hnear
    rw [if_pos hnear, if_neg (by rw [h]; intro hc; cases hc)]
    by_cases hz : s.lives - 1 ≤ 0
    · rw [if_pos hz]
    · rw [if_neg hz]

/-- C3 amended witness: the frozen ghost phase and the capture reset
evaluated on the concrete sFreeze state. -/
theorem freeze_ghost_phase_witness :
    phaseGhosts [] sFreeze = sFreeze ∧
    ghostAccesses [] sFreeze = [] ∧
    (collideOne sFreeze 0).ghosts = initGhosts := by
  have h := freeze_ghost_phase sFreeze [] 0 rfl
  exact ⟨h.1, h.2.1, h.2.2 (by with_unfolding_all decide)⟩

theorem advanceGhost_eq (gt : ℕ) (g : Ghost) :
    (advanceGhost gt g).x = g.x ∧ (advanceGhost gt g).y = g.y ∧
    (advanceGhost gt g).behavior = g.behavior ∧
    (advanceGhost gt g).specialTimer = g.specialTimer + 0.016 ∧
    (advanceGhost gt g).speed =
      (if gt % 30 = 0 ∧ 0 < gt then g.speed + 0.001 else g.speed) := by
  unfold advanceGhost
  split
  · exact ⟨rfl, rfl, rfl, rfl, rfl⟩
  · exact ⟨rfl, rfl, rfl, rfl, rfl⟩

/-- C4 counterexample: a two-tick sequence (far shorter than the
5-second modulus; the timer stays below 5 throughout) in which the
Random pursuer computes target (2,3) on the first tick and (7,9) on
the next: the target does not remain constant between modulus
crossings, because the code redraws it on every tick whose timer
truncation is divisible by five. -/
theorem random_target_changes_cex :
    clyde0.behavior = 3 ∧
    (advanceGhost 0 clyde0).specialTimer < 5 ∧
    (advanceGhost 0 (updateGhost (-1) 0 pacStill initBoard clyde0 (2, 3)
      clyde0).1).specialTimer < 5 ∧
    ghostTarget pacStill clyde0 (2, 3) (advanceGhost 0 clyde0) =
      ((2 : ℚ), (3 : ℚ)) ∧
    ghostTarget pacStill clyde0 (7, 9)
      (advanceGhost 0 (updateGhost (-1) 0 pacStill initBoard clyde0 (2, 3)
        clyde0).1) = ((7 : ℚ), (9 : ℚ)) ∧
    ((2 : ℚ), (3 : ℚ)) ≠ ((7 : ℚ), (9 : ℚ)) := by
  refine ⟨rfl, ?_, ?_, ?_, ?_, ?_⟩ <;> with_unfolding_all decide

/-- C4 amended: the Random pursuer stores no target between ticks.
Its timer advances by the fixed 0.016 every non-frozen tick, and each
tick recomputes the target from scratch: whenever the truncated timer
is divisible by 5 (which holds throughout whole-second windows, one
window per five seconds of timer, including the very first second) the
target is redrawn from the random oracle reduced modulo the grid size,
hence lies within grid bounds; on every other tick the target is the
avatar current position (the initialisation value), not a retained
previous target. -/
theorem random_target_rule (pac : Pacman) (g0 : Ghost) (rnd : ℕ × ℕ)
    (gameTime : ℕ) (g : Ghost) (hb : g.behavior = 3) :
    (advanceGhost gameTime g).specialTimer = g.specialTimer + 0.016 ∧
    (trunc (g.specialTimer + 0.016) % 5 = 0 →
      ghostTarget pac g0 rnd (advanceGhost gameTime g) =
        (((rnd.1 % 20 : ℕ) : ℚ), ((rnd.2 % 20 : ℕ) : ℚ)) ∧
      (0 : ℚ) ≤ ((rnd.1 % 20 : ℕ) : ℚ) ∧ ((rnd.1 % 20 : ℕ) : ℚ) < 20 ∧
      (0 : ℚ) ≤ ((rnd.2 % 20 : ℕ) : ℚ) ∧ ((rnd.2 % 20 : ℕ) : ℚ) < 20) ∧
    (trunc (g.specialTimer + 0.016) % 5 ≠ 0 →
      ghostTarget pac g0 rnd (advanceGhost gameTime g) = (pac.x, pac.y)) := by
  have hadv := advanceGhost_eq gameTime g
  have hbehav : (advanceGhost gameTime g).behavior = 3 := by
    rw [hadv.2.2.1, hb]
  have htimer : (advanceGhost gameTime g).specialTimer =
      g.specialTimer + 0.016 := hadv.2.2.2.1
  refine ⟨htimer, ?_, ?_⟩
  · intro hmod
    unfold ghostTarget
    rw [hbehav, htimer]
    rw [if_neg (by omega), if_neg (by omega), if_neg (by omega),
      if_pos rfl, if_pos hmod]
    refine ⟨rfl, ?_, ?_, ?_, ?_⟩
    · positivity
    · exact_mod_cast Nat.mod_lt rnd.1 (by omega)
    · positivity
    · exact_mod_cast Nat.mod_lt rnd.2 (by omega)
  · intro hmod
    unfold ghostTarget
    rw [hbehav, htimer]
    rw [if_neg (by omega), if_neg (by omega), if_neg (by omega),
      if_pos rfl, if_neg hmod]

/-- C4 amended witness: the redraw-window branch at the session-start
Random pursuer, and the avatar-position branch at a pursuer whose
timer truncates to 1. -/
theorem random_target_rule_witness :
    ghostTarget pacStill clyde0 (2, 3) (advanceGhost 0 clyde0) =
      (((2 % 20 : ℕ) : ℚ), ((3 % 20 : ℕ) : ℚ)) ∧
    ghostTarget pacStill clyde0 (2, 3) (advanceGhost 0 clyde1) =
      (pacStill.x, pacStill.y) :=
  ⟨((random_target_rule pacStill clyde0 (2, 3) 0 clyde0 rfl).2.1
      (by with_unfolding_all decide)).1,
    (random_target_rule pacStill clyde0 (2, 3) 0 clyde1 rfl).2.2
      (by with_unfolding_all decide)⟩

theorem ghostMove_keeps (b : Board) (g : Ghost) (t : ℚ × ℚ) :
    ((ghostMove b g t).1).speed = g.speed ∧
    ((ghostMove b g t).1).behavior = g.behavior ∧
    ((ghostMove b g t).1).specialTimer = g.specialTimer := by
  unfold ghostMove
  split
  · split
    · exact ⟨rfl, rfl, rfl⟩
    · exact ⟨rfl, rfl, rfl⟩
  · exact ⟨rfl, rfl, rfl⟩

/-- C6 counterexample: a pursuer whose ramped speed 0.05 exceeds its
initial 0.04 is captured this tick (with no Freeze and no
Invincibility); the capture branch re-creates the pursuer list, so
the pursuer speed after the tick is 0.04, strictly below its speed
before the tick — speed is not monotone over session time. -/
theorem ghost_speed_reset_cex :
    (sSpeed.ghosts.getD 0 defaultGhost).speed = 0.05 ∧
    ((updateGame sSpeed []).ghosts.getD 0 defaultGhost).speed = 0.04 ∧
    ((updateGame sSpeed []).ghosts.getD 0 defaultGhost).speed <
      (sSpeed.ghosts.getD 0 defaultGhost).speed := by
  refine ⟨?_, ?_, ?_⟩ <;> with_unfolding_all decide

/-- C6 amended: within the ghost-update phase a pursuer speed never
decreases and is updated by one rule common to all behaviour tags:
plus 0.001 on every tick executed while gameTime is a positive
multiple of 30 (about sixty ticks per qualifying interval, not one),
unchanged otherwise, and untouched entirely while frozen.  Across a
whole session the speed is not monotone: the capture branch of the
collision loop re-creates all pursuers to their session-start
records, resetting any ramped speed. -/
theorem ghost_speed_update (apu : ℤ) (gt : ℕ) (pac : Pacman) (b : Board)
    (g0 : Ghost) (rnd : ℕ × ℕ) (g : Ghost) (s : GState) (i : ℕ) :
    ((updateGhost apu gt pac b g0 rnd g).1).speed =
      (if apu = 1 then g.speed
       else if gt % 30 = 0 ∧ 0 < gt then g.speed + 0.001 else g.speed) ∧
    g.speed ≤ ((updateGhost apu gt pac b g0 rnd g).1).speed ∧
    (nearGhost s i → s.activePowerUp ≠ 0 →
      (collideOne s i).ghosts = initGhosts) := by
  have hmain : ((updateGhost apu gt pac b g0 rnd g).1).speed =
      (if apu = 1 then g.speed
       else if gt % 30 = 0 ∧ 0 < gt then g.speed + 0.001 else g.speed) := by
    unfold updateGhost
    by_cases hapu : apu = 1
    · rw [if_pos hapu, if_pos hapu]
    · rw [if_neg hapu, if_neg hapu]
      rw [(ghostMove_keeps b (advanceGhost gt g) _).1]
      exact (advanceGhost_eq gt g).2.2.2.2
  refine ⟨hmain, ?_, ?_⟩
  · rw [hmain]
    split
    · exact le_refl _
    · split
      · linarith
      · exact le_refl _
  · intro hnear hinv
    unfold collideOne
    unfold nearGhost at hnear
    rw [if_pos hnear, if_neg hinv]
    by_cases hz : s.lives - 1 ≤ 0
    · rw [if_pos hz]
    · rw [if_neg hz]

/-- C6 amended witness: the speed rule evaluated at the session-start
Random pursuer on a non-increment tick, and the capture reset on the
concrete sSpeed state. -/
theorem ghost_speed_update_witness :
    clyde0.speed ≤
      ((updateGhost (-1) 1 pacStill initBoard clyde0 (0, 0) clyde0).1).speed ∧
    (collideOne sSpeed 0).ghosts = initGhosts :=
  ⟨(ghost_speed_update (-1) 1 pacStill initBoard clyde0 (0, 0) clyde0
      sSpeed 0).2.1,
    (ghost_speed_update (-1) 1 pacStill initBoard clyde0 (0, 0) clyde0
      sSpeed 0).2.2 (by with_unfolding_all decide)
      (by with_unfolding_all decide)⟩

/-- C5 counterexample: the avatar consumes a pellet (the cell turns
Empty and the number of pellet cells drops by one), yet the programs
totalPellets counter is not decremented: it is written only by
initBoard. -/
theorem totalPellets_not_decremented_cex :
    sEat.board 2 2 = Cell.pellet ∧
    (updateGame sEat []).board 2 2 = Cell.empty ∧
    pelletCount (updateGame sEat []).board = pelletCount sEat.board - 1 ∧
    (updateGame sEat []).totalPellets = sEat.totalPellets := by
  refine ⟨?_, ?_, ?_, ?_⟩ <;> with_unfolding_all decide

theorem phasePower_of_not_power (s : GState)
    (h : s.board (trunc s.pac.y) (trunc s.pac.x) ≠ Cell.power) :
    phasePower s = s := by
  unfold phasePower
  rw [if_neg h]

/-- C5 amended: whenever the cell the avatar occupies after its move is
a Pellet (at in-range indices), the tick turns that cell to Empty and
the number of Pellet cells on the board strictly decreases; the
totalPellets variable, however, is never decremented by a tick — the
code sets it only while the board is built (where it even counts
eight cells that the clearings and markers immediately overwrite: the
centre clearing alone lands on an uncounted cross-wall cell) and the
win check rescans the board instead of consulting it. -/
theorem pellet_consume (s : GState) (rnds : List (ℕ × ℕ))
    (hmode : s.gameState = GameState.PLAYING)
    (hr0 : 0 ≤ trunc (phaseMove (phaseFrame s)).pac.y)
    (hr1 : trunc (phaseMove (phaseFrame s)).pac.y ≤ 19)
    (hc0 : 0 ≤ trunc (phaseMove (phaseFrame s)).pac.x)
    (hc1 : trunc (phaseMove (phaseFrame s)).pac.x ≤ 19)
    (hcell : (phaseMove (phaseFrame s)).board
        (trunc (phaseMove (phaseFrame s)).pac.y)
        (trunc (phaseMove (phaseFrame s)).pac.x) = Cell.pellet) :
    pelletCount (updateGame s rnds).board < pelletCount s.board ∧
    (updateGame s rnds).board (trunc (phaseMove (phaseFrame s)).pac.y)
      (trunc (phaseMove (phaseFrame s)).pac.x) = Cell.empty ∧
    (updateGame s rnds).totalPellets = s.totalPellets := by
  have heat : phaseEat (phaseMove (phaseFrame s)) =
      { phaseMove (phaseFrame s) with
        board := updateBoard (phaseMove (phaseFrame s)).board
          (trunc (phaseMove (phaseFrame s)).pac.y)
          (trunc (phaseMove (phaseFrame s)).pac.x) Cell.empty,
        score := (phaseMove (phaseFrame s)).score + 10 } := by
    unfold phaseEat
    rw [if_pos hcell]
  have hcellEmpty : (phaseEat (phaseMove (phaseFrame s))).board
      (trunc (phaseMove (phaseFrame s)).pac.y)
      (trunc (phaseMove (phaseFrame s)).pac.x) = Cell.empty := by
    rw [heat]
    show updateBoard _ _ _ Cell.empty _ _ = Cell.empty
    unfold updateBoard
    rw [if_pos ⟨rfl, rfl⟩]
  have hpacEat : (phaseEat (phaseMove (phaseFrame s))).pac =
      (phaseMove (phaseFrame s)).pac := (phaseEat_eq _).1
  have hpow : phasePower (phaseEat (phaseMove (phaseFrame s))) =
      phaseEat (phaseMove (phaseFrame s)) := by
    apply phasePower_of_not_power
    rw [hpacEat, hcellEmpty]
    intro hc
    cases hc
  have hfinalBoard : (updateGame s rnds).board =
      (phaseEat (phaseMove (phaseFrame s))).board := by
    unfold updateGame
    rw [if_pos hmode]
    rw [(phaseWin_eq _).1, (collisionPhase_eq _).1, (phaseGhosts_eq _ _).1,
      (phaseTimer_eq _).1, hpow]
  refine ⟨?_, ?_, ?_⟩
  · rw [hfinalBoard, heat]
    show pelletCount (updateBoard _ _ _ Cell.empty) < _
    have hlt := pelletCount_update_lt (phaseMove (phaseFrame s)).board
      (trunc (phaseMove (phaseFrame s)).pac.y)
      (trunc (phaseMove (phaseFrame s)).pac.x) hr0 hr1 hc0 hc1 hcell
    rw [(phaseMove_eq (phaseFrame s)).1, (phaseFrame_eq s).1] at hlt
    rw [(phaseMove_eq (phaseFrame s)).1, (phaseFrame_eq s).1]
    exact hlt
  · rw [hfinalBoard]
    exact hcellEmpty
  · unfold updateGame
    rw [if_pos hmode]
    rw [(phaseWin_eq _).2.1, (collisionPhase_eq _).2.1,
      (phaseGhosts_eq _ _).2.2.2.2.1, (phaseTimer_eq _).2.2.2.2.1,
      (phasePower_eq _).2.2.2.1, (phaseEat_eq _).2.2.2.2.1,
      (phaseMove_eq _).2.2.2.2.1, (phaseFrame_eq _).2.2.2.2.2.1]

/-- C5 amended witness: the consumption evaluated on the concrete sEat
state. -/
theorem pellet_consume_witness :
    pelletCount (updateGame sEat []).board < pelletCount sEat.board ∧
    (updateGame sEat []).board (trunc (phaseMove (phaseFrame sEat)).pac.y)
      (trunc (phaseMove (phaseFrame sEat)).pac.x) = Cell.empty ∧
    (updateGame sEat []).totalPellets = sEat.totalPellets :=
  pellet_consume sEat [] rfl (by with_unfolding_all decide)
    (by with_unfolding_all decide) (by with_unfolding_all decide)
    (by with_unfolding_all decide) (by with_unfolding_all decide)

theorem trunc_access_bound (x sp : ℚ) (d : ℤ) (hx : 1 ≤ x) (hx2 : x < 19)
    (h0 : 0 ≤ sp) (h1 : sp < 1) (hd : |d| ≤ 1) :
    0 ≤ trunc (x + (d : ℚ) * sp) ∧ trunc (x + (d : ℚ) * sp) ≤ 19 := by
  have hdq : |(d : ℚ)| ≤ 1 := by exact_mod_cast hd
  have habs : |(d : ℚ) * sp| ≤ sp := by
    rw [abs_mul, abs_of_nonneg h0]
    calc |(d : ℚ)| * sp ≤ 1 * sp := mul_le_mul_of_nonneg_right hdq h0
      _ = sp := one_mul sp
  have hb := abs_le.mp habs
  exact trunc_bound _ (by linarith) (by linarith)

theorem bordersIntact_wall (b : Board) (hb : bordersIntact b) (r c : ℤ)
    (hr0 : 0 ≤ r) (hr1 : r ≤ 19) (hc0 : 0 ≤ c) (hc1 : c ≤ 19)
    (hedge : r = 0 ∨ r = 19 ∨ c = 0 ∨ c = 19) : b r c = Cell.wall := by
  have h := hb r.toNat (by omega) c.toNat (by omega) (by omega)
  rw [Int.toNat_of_nonneg hr0, Int.toNat_of_nonneg hc0] at h
  exact h

theorem ratSqrtUp_zero_of_nonpos (q : ℚ) (h : q ≤ 0) : ratSqrtUp q = 0 := by
  unfold ratSqrtUp
  rw [if_pos h]

theorem step_bound (dx dy sp : ℚ) (h0 : 0 ≤ sp)
    (hd : 0 < ratSqrtUp (dx * dx + dy * dy)) :
    |dx / ratSqrtUp (dx * dx + dy * dy) * sp| ≤ sp := by
  have hqpos : 0 < dx * dx + dy * dy := by
    by_contra hle
    push_neg at hle
    rw [ratSqrtUp_zero_of_nonpos _ hle] at hd
    exact absurd hd (lt_irrefl 0)
  have hsq := ratSqrtUp_sq_ge _ hqpos
  have hdx2 : dx * dx ≤ ratSqrtUp (dx * dx + dy * dy) *
      ratSqrtUp (dx * dx + dy * dy) := by nlinarith [sq_nonneg dy]
  have hdxd : |dx| ≤ ratSqrtUp (dx * dx + dy * dy) := by
    nlinarith [abs_nonneg dx, abs_mul_abs_self dx, le_of_lt hd]
  rw [abs_mul, abs_div, abs_of_nonneg h0, abs_of_nonneg (le_of_lt hd)]
  have hr : |dx| / ratSqrtUp (dx * dx + dy * dy) ≤ 1 :=
    (div_le_one hd).mpr hdxd
  calc |dx| / ratSqrtUp (dx * dx + dy * dy) * sp ≤ 1 * sp :=
      mul_le_mul_of_nonneg_right hr h0
    _ = sp := one_mul sp

theorem ghostMove_access_bound (b : Board) (g : Ghost) (t : ℚ × ℚ)
    (hgx : 1 ≤ g.x) (hgx2 : g.x < 19) (hgy : 1 ≤ g.y) (hgy2 : g.y < 19)
    (hsp0 : 0 ≤ g.speed) (hsp1 : g.speed < 1) :
    ∀ p ∈ (ghostMove b g t).2, accessInBounds p := by
  intro p hp
  unfold ghostMove at hp
  by_cases hdist :
      0 < ratSqrtUp ((t.1 - g.x) * (t.1 - g.x) + (t.2 - g.y) * (t.2 - g.y))
  · rw [if_pos hdist] at hp
    have hx := abs_le.mp (step_bound (t.1 - g.x) (t.2 - g.y) g.speed
      hsp0 hdist)
    have hy : |(t.2 - g.y) / ratSqrtUp ((t.1 - g.x) * (t.1 - g.x) +
        (t.2 - g.y) * (t.2 - g.y)) * g.speed| ≤ g.speed := by
      have := step_bound (t.2 - g.y) (t.1 - g.x) g.speed hsp0
        (by rw [add_comm ((t.2 - g.y) * (t.2 - g.y))]; exact hdist)
      rw [add_comm ((t.2 - g.y) * (t.2 - g.y))] at this
      exact this
    have hy' := abs_le.mp hy
    have hrow := trunc_bound (g.y + (t.2 - g.y) /
        ratSqrtUp ((t.1 - g.x) * (t.1 - g.x) + (t.2 - g.y) * (t.2 - g.y)) *
        g.speed) (by linarith) (by linarith)
    have hcol := trunc_bound (g.x + (t.1 - g.x) /
        ratSqrtUp ((t.1 - g.x) * (t.1 - g.x) + (t.2 - g.y) * (t.2 - g.y)) *
        g.speed) (by linarith) (by linarith)
    split at hp <;>
      (rw [List.mem_singleton] at hp; subst hp;
       exact ⟨hrow.1, hrow.2, hcol.1, hcol.2⟩)
  · rw [if_neg hdist] at hp
    cases hp

theorem updateGhost_access_bound (apu : ℤ) (gt : ℕ) (pac : Pacman)
    (b : Board) (g0 : Ghost) (rnd : ℕ × ℕ) (g : Ghost)
    (hgx : 1 ≤ g.x) (hgx2 : g.x < 19) (hgy : 1 ≤ g.y) (hgy2 : g.y < 19)
    (hsp0 : 0 ≤ g.speed) (hsp1 : g.speed + 0.001 < 1) :
    ∀ p ∈ (updateGhost apu gt pac b g0 rnd g).2, accessInBounds p := by
  intro p hp
  unfold updateGhost at hp
  by_cases hapu : apu = 1
  · rw [if_pos hapu] at hp
    cases hp
  · rw [if_neg hapu] at hp
    have hadv := advanceGhost_eq gt g
    have hax : (advanceGhost gt g).x = g.x := hadv.1
    have hay : (advanceGhost gt g).y = g.y := hadv.2.1
    have haspeed0 : 0 ≤ (advanceGhost gt g).speed := by
      rw [hadv.2.2.2.2]
      split <;> linarith
    have haspeed1 : (advanceGhost gt g).speed < 1 := by
      rw [hadv.2.2.2.2]
      split <;> linarith
    exact ghostMove_access_bound b (advanceGhost gt g) _
      (by rw [hax]; exact hgx) (by rw [hax]; exact hgx2)
      (by rw [hay]; exact hgy) (by rw [hay]; exact hgy2)
      haspeed0 haspeed1 p hp

theorem stepGhostsRest_access_bound (apu : ℤ) (gt : ℕ) (pac : Pacman)
    (b : Board) (g0 : Ghost) :
    ∀ (gs : List Ghost) (rnds : List (ℕ × ℕ)),
    (∀ g ∈ gs, (1 ≤ g.x ∧ g.x < 19 ∧ 1 ≤ g.y ∧ g.y < 19) ∧
      0 ≤ g.speed ∧ g.speed + 0.001 < 1) →
    ∀ p ∈ (stepGhostsRest apu gt pac b g0 rnds gs).2, accessInBounds p := by
  intro gs
  induction gs with
  | nil =>
    intro rnds _ p hp
    cases hp
  | cons g tl ih =>
    intro rnds hg p hp
    unfold stepGhostsRest at hp
    rw [List.mem_append] at hp
    rcases hp with hp | hp
    · have hgg := hg g (List.mem_cons_self g tl)
      exact updateGhost_access_bound apu gt pac b g0 (rnds.headD (0, 0)) g
        hgg.1.1 hgg.1.2.1 hgg.1.2.2.1 hgg.1.2.2.2 hgg.2.1 hgg.2.2 p hp
    · exact ih rnds.tail (fun x hx => hg x (List.mem_cons_of_mem g hx)) p hp

theorem stepGhosts_access_bound (apu : ℤ) (gt : ℕ) (pac : Pacman)
    (b : Board) (rnds : List (ℕ × ℕ)) (gs : List Ghost)
    (hg : ∀ g ∈ gs, (1 ≤ g.x ∧ g.x < 19 ∧ 1 ≤ g.y ∧ g.y < 19) ∧
      0 ≤ g.speed ∧ g.speed + 0.001 < 1) :
    ∀ p ∈ (stepGhosts apu gt pac b rnds gs).2, accessInBounds p := by
  cases gs with
  | nil =>
    intro p hp
    cases hp
  | cons g0 tl =>
    intro p hp
    unfold stepGhosts at hp
    rw [List.mem_append] at hp
    have hg0 := hg g0 (List.mem_cons_self g0 tl)
    rcases hp with hp | hp
    · exact updateGhost_access_bound apu gt pac b g0 (rnds.headD (0, 0)) g0
        hg0.1.1 hg0.1.2.1 hg0.1.2.2.1 hg0.1.2.2.2 hg0.2.1 hg0.2.2 p hp
    · exact stepGhostsRest_access_bound apu gt pac b _ tl rnds.tail
        (fun x hx => hg x (List.mem_cons_of_mem g0 hx)) p hp

theorem phaseMove_posInGrid (s : GState) (hb : bordersIntact s.board)
    (hpac : posInGrid s.pac.x s.pac.y)
    (hps0 : 0 ≤ s.pac.speed) (hps1 : s.pac.speed < 1)
    (hdx : |s.pac.dirX| ≤ 1) (hdy : |s.pac.dirY| ≤ 1) :
    posInGrid (phaseMove s).pac.x (phaseMove s).pac.y := by
  obtain ⟨hx1, hx2, hy1, hy2⟩ := hpac
  have hcol := trunc_access_bound s.pac.x s.pac.speed s.pac.dirX
    hx1 hx2 hps0 hps1 hdx
  have hrow := trunc_access_bound s.pac.y s.pac.speed s.pac.dirY
    hy1 hy2 hps0 hps1 hdy
  unfold phaseMove
  split
  · rename_i hwall
    have hcol' : 1 ≤ trunc (s.pac.x + (s.pac.dirX : ℚ) * s.pac.speed) ∧
        trunc (s.pac.x + (s.pac.dirX : ℚ) * s.pac.speed) ≤ 18 := by
      constructor
      · by_contra hlt
        push_neg at hlt
        exact hwall (bordersIntact_wall s.board hb _ _ hrow.1 hrow.2
          hcol.1 hcol.2 (by omega))
      · by_contra hlt
        push_neg at hlt
        exact hwall (bordersIntact_wall s.board hb _ _ hrow.1 hrow.2
          hcol.1 hcol.2 (by omega))
    have hrow' : 1 ≤ trunc (s.pac.y + (s.pac.dirY : ℚ) * s.pac.speed) ∧
        trunc (s.pac.y + (s.pac.dirY : ℚ) * s.pac.speed) ≤ 18 := by
      constructor
      · by_contra hlt
        push_neg at hlt
        exact hwall (bordersIntact_wall s.board hb _ _ hrow.1 hrow.2
          hcol.1 hcol.2 (by omega))
      · by_contra hlt
        push_neg at hlt
        exact hwall (bordersIntact_wall s.board hb _ _ hrow.1 hrow.2
          hcol.1 hcol.2 (by omega))
    have hxin := inner_of_trunc _ hcol'.1 hcol'.2
    have hyin := inner_of_trunc _ hrow'.1 hrow'.2
    exact ⟨hxin.1, hxin.2, hyin.1, hyin.2⟩
  · exact ⟨hx1, hx2, hy1, hy2⟩

/-- C10 amended: from any state whose border walls are intact and whose
avatar and pursuers all sit strictly inside the border ring, a tick
performs only in-range board accesses provided every per-tick step
magnitude stays below one cell: the avatar speed (its heading
components are -1, 0 or 1) and every pursuer speed, even after the
per-tick ramp increment of 0.001, must be below 1.  The speed
hypothesis is essential and not implied by the movement rule: the
ramped pursuer speed grows without bound, and a pursuer with speed at
least 1 next to the east wall computes column index 20 (the stated
claim fails there, see the counterexample). -/
theorem tick_accesses_inBounds (s : GState) (rnds : List (ℕ × ℕ))
    (hb : bordersIntact s.board)
    (hpac : posInGrid s.pac.x s.pac.y)
    (hps0 : 0 ≤ s.pac.speed) (hps1 : s.pac.speed < 1)
    (hdx : |s.pac.dirX| ≤ 1) (hdy : |s.pac.dirY| ≤ 1)
    (hg : ∀ g ∈ s.ghosts, posInGrid g.x g.y ∧ 0 ≤ g.speed ∧
      g.speed + 0.001 < 1) :
    ∀ p ∈ tickAccesses s rnds, accessInBounds p := by
  intro p hp
  unfold tickAccesses at hp
  by_cases hmode : s.gameState = GameState.PLAYING
  · rw [if_pos hmode] at hp
    have hfpac : (phaseFrame s).pac = s.pac := (phaseFrame_eq s).2.1
    have hfboard : (phaseFrame s).board = s.board := (phaseFrame_eq s).1
    obtain ⟨hx1, hx2, hy1, hy2⟩ := hpac
    have hpac2 : posInGrid (phaseMove (phaseFrame s)).pac.x
        (phaseMove (phaseFrame s)).pac.y := by
      apply phaseMove_posInGrid (phaseFrame s)
      · rw [hfboard]; exact hb
      · rw [hfpac]; exact ⟨hx1, hx2, hy1, hy2⟩
      · rw [hfpac]; exact hps0
      · rw [hfpac]; exact hps1
      · rw [hfpac]; exact hdx
      · rw [hfpac]; exact hdy
    rcases List.mem_cons.mp hp with hp1 | hp
    · subst hp1
      unfold moveAccess
      rw [hfpac]
      have hrow := trunc_access_bound s.pac.y s.pac.speed s.pac.dirY
        hy1 hy2 hps0 hps1 hdy
      have hcol := trunc_access_bound s.pac.x s.pac.speed s.pac.dirX
        hx1 hx2 hps0 hps1 hdx
      exact ⟨hrow.1, hrow.2, hcol.1, hcol.2⟩
    · have hcell : accessInBounds (cellAccess (phaseMove (phaseFrame s))) := by
        obtain ⟨ha1, ha2, hb1, hb2⟩ := hpac2
        have hcol := trunc_inner _ ha1 ha2
        have hrow := trunc_inner _ hb1 hb2
        unfold cellAccess accessInBounds
        exact ⟨by omega, by omega, by omega, by omega⟩
      rcases List.mem_cons.mp hp with hp2 | hp
      · subst hp2; exact hcell
      · rcases List.mem_cons.mp hp with hp3 | hp
        · subst hp3; exact hcell
        · have hghosts : (phaseTimer (phasePower (phaseEat (phaseMove
              (phaseFrame s))))).ghosts = s.ghosts := by
            rw [(phaseTimer_eq _).2.1, (phasePower_eq _).1,
              (phaseEat_eq _).2.1, (phaseMove_eq _).2.1,
              (phaseFrame_eq _).2.2.1]
          unfold ghostAccesses at hp
          rw [hghosts] at hp
          exact stepGhosts_access_bound _ _ _ _ rnds s.ghosts
            (fun g hgm => ⟨(hg g hgm).1, (hg g hgm).2.1, (hg g hgm).2.2⟩)
            p hp
  · rw [if_neg hmode] at hp
    cases hp

/-- C10 amended witness: the bound evaluated at a freshly started
session (all speeds far below one cell per tick) on the avatar
wall-check access of its first tick, the pair (1, 1). -/
theorem tick_accesses_inBounds_witness : accessInBounds ((1 : ℤ), (1 : ℤ)) :=
  tick_accesses_inBounds initialState [] (by with_unfolding_all decide)
    (by with_unfolding_all decide) (by with_unfolding_all decide)
    (by with_unfolding_all decide) (by with_unfolding_all decide)
    (by with_unfolding_all decide) (by with_unfolding_all decide)
    (1, 1) (by with_unfolding_all decide)

/-- C10 counterexample: the sField state satisfies every premise the
claim states (intact border walls, avatar and all pursuers strictly
inside the bordered grid, positions reachable only through the
wall-checked movement rule), yet the tick reads board index (10, 20):
column 20 is outside the 20x20 array.  The culprit is the unbounded
speed ramp: the ambusher pursuer has speed 1.2.  Hence the claim as
stated, quantified over such states, is false. -/
theorem out_of_bounds_access_cex :
    bordersIntact sField.board ∧
    posInGrid sField.pac.x sField.pac.y ∧
    (∀ g ∈ sField.ghosts, posInGrid g.x g.y) ∧
    (10, 20) ∈ tickAccesses sField [] ∧
    ¬ accessInBounds ((10 : ℤ), (20 : ℤ)) ∧
    ¬ boundedAccessClaim := by
  have h1 : bordersIntact sField.board := by with_unfolding_all decide
  have h2 : posInGrid sField.pac.x sField.pac.y := by
    with_unfolding_all decide
  have h3 : ∀ g ∈ sField.ghosts, posInGrid g.x g.y := by
    with_unfolding_all decide
  have hmem : (10, 20) ∈ tickAccesses sField [] := by
    with_unfolding_all decide
  have hnb : ¬ accessInBounds ((10 : ℤ), (20 : ℤ)) := by
    with_unfolding_all decide
  refine ⟨h1, h2, h3, hmem, hnb, ?_⟩
  intro hclaim
  exact hnb (hclaim sField [] h1 h2 h3 (10, 20) hmem)

/-- C9 witness: the save rule applied by the win transition of a
concrete cleared session whose final score 120 beats the stored 50. -/
theorem highscore_persistence_witness :
    loadHighScore none = 0 ∧
    ((saveHighScore 120 50).2 = true ↔ (50 : ℤ) < 120) ∧
    (phaseWin sWon).highScore = (saveHighScore sWon.score sWon.highScore).1 :=
  ⟨highscore_persistence.1,
    highscore_persistence.2.2.1 120 50,
    highscore_persistence.2.2.2.2 sWon (by with_unfolding_all decide)⟩
